import Mathlib

/-!
Verification of the Clerk→Supabase federation and bootstrap subsystem of the
Clerk-starter-expo repository, against its natural-language specification.

The development shallowly embeds the relevant source functions:

* the deterministic identity mapper `uuidV5FromString` (edge function
  `clerk-jwt-verify` / direct-JWT variant) and the two test-suite
  implementations `uuidv5_node` / `uuidv5_webcrypto` from `tests/_utils`,
  together with the `isUuid` well-formedness check used by the tests;
* the JWT compact serialization, HMAC-SHA256 signing (modelling the `jose`
  library contract for `SignJWT` with alg HS256) and the test helper
  `verifyHs256` / `decodeJwtNoVerify` from `tests/_utils`;
* the federation edge-function request handler (direct JWT minting variant);
* the SQL installer RPC `bootstrap_install`, the readiness introspector
  `bootstrap_status`, and the `bootstrap-system` edge function, over an
  explicit catalog-state record.

External library primitives (SHA-1, SHA-256 via node:crypto / WebCrypto,
base64 via Buffer, JSON.parse / JSON.stringify, UTF-8 via TextEncoder) are
embedded from their standard specifications; everything else is translated
from the repository source. Machine integers are modelled as `Nat` with
explicit reduction modulo 2^32 where the sources rely on 32-bit overflow.
-/

set_option maxRecDepth 100000

/-! ### 32-bit words and byte utilities -/

/-- Reduce a natural number to a 32-bit word. -/
def w32 (n : Nat) : Nat := n % 4294967296

/-- Rotate a 32-bit word left by `b` bits. -/
def rotl (b n : Nat) : Nat := w32 ((n <<< b) ||| (n >>> (32 - b)))

/-- Rotate a 32-bit word right by `b` bits. -/
def rotr (b n : Nat) : Nat := w32 ((n >>> b) ||| (n <<< (32 - b)))

/-- Big-endian bytes of a 64-bit length field (used by SHA padding). -/
def be64 (n : Nat) : List Nat :=
  [n / 72057594037927936 % 256, n / 281474976710656 % 256,
   n / 1099511627776 % 256, n / 4294967296 % 256,
   n / 16777216 % 256, n / 65536 % 256, n / 256 % 256, n % 256]

/-- Big-endian bytes of a 32-bit word. -/
def wordBe (w : Nat) : List Nat :=
  [w / 16777216 % 256, w / 65536 % 256, w / 256 % 256, w % 256]

/-- Combine bytes into big-endian 32-bit words, four at a time. -/
def beWords : List Nat → List Nat
  | b0 :: b1 :: b2 :: b3 :: rest =>
      (b0 * 16777216 + b1 * 65536 + b2 * 256 + b3) :: beWords rest
  | _ => []

/-- Accumulate bytes into 64-byte blocks (`cur` holds the current block in
reverse, `n` its size). Structural recursion keeps this kernel-reducible. -/
def splitBlocks : List Nat → List Nat → Nat → List (List Nat)
  | [], cur, _ => if cur.isEmpty then [] else [cur.reverse]
  | b :: rest, cur, n =>
      if n = 63 then (b :: cur).reverse :: splitBlocks rest [] 0
      else splitBlocks rest (b :: cur) (n + 1)

/-- Split a byte string into 64-byte blocks. -/
def chunks64 (bs : List Nat) : List (List Nat) := splitBlocks bs [] 0

/-- Merkle–Damgård padding shared by SHA-1 and SHA-256: append the `0x80`
byte, zero bytes up to 56 mod 64, and the 64-bit big-endian bit length. -/
def shaPad (msg : List Nat) : List Nat :=
  msg ++ 128 :: List.replicate ((119 - msg.length % 64) % 64) 0 ++ be64 (8 * msg.length)

/-! ### SHA-1 (FIPS 180, as implemented by node:crypto createHash / WebCrypto
subtle.digest, the hash primitives of the two UUIDv5 implementations) -/

/-- SHA-1 round function `f` for round `i`. -/
def sha1F (i b c d : Nat) : Nat :=
  if i < 20 then (b &&& c) ||| ((b ^^^ 4294967295) &&& d)
  else if i < 40 then b ^^^ c ^^^ d
  else if i < 60 then (b &&& c) ||| (b &&& d) ||| (c &&& d)
  else b ^^^ c ^^^ d

/-- SHA-1 round constant for round `i`. -/
def sha1K (i : Nat) : Nat :=
  if i < 20 then 1518500249
  else if i < 40 then 1859775393
  else if i < 60 then 2400959708
  else 3395469782

/-- Extend the 16-word message schedule by `n` further words. -/
def sha1Extend (ws : List Nat) : Nat → List Nat
  | 0 => ws
  | n + 1 =>
      let l := ws.length
      let w := rotl 1 ((ws.getD (l - 3) 0) ^^^ (ws.getD (l - 8) 0) ^^^
        (ws.getD (l - 14) 0) ^^^ (ws.getD (l - 16) 0))
      sha1Extend (ws ++ [w]) n

/-- Run the 80 SHA-1 rounds over the word schedule. -/
def sha1Rounds : Nat → List Nat → Nat × Nat × Nat × Nat × Nat → Nat × Nat × Nat × Nat × Nat
  | _, [], st => st
  | i, w :: ws, (a, b, c, d, e) =>
      let t := w32 (rotl 5 a + sha1F i b c d + e + sha1K i + w)
      sha1Rounds (i + 1) ws (t, a, rotl 30 b, c, d)

/-- Compress one 64-byte block into the running SHA-1 state. -/
def sha1Block (h : Nat × Nat × Nat × Nat × Nat) (block : List Nat) :
    Nat × Nat × Nat × Nat × Nat :=
  let ws := sha1Extend (beWords block) 64
  match h, sha1Rounds 0 ws h with
  | (h0, h1, h2, h3, h4), (a, b, c, d, e) =>
      (w32 (h0 + a), w32 (h1 + b), w32 (h2 + c), w32 (h3 + d), w32 (h4 + e))

/-- The five-word SHA-1 state after hashing a whole message. -/
def sha1Digest (msg : List Nat) : Nat × Nat × Nat × Nat × Nat :=
  (chunks64 (shaPad msg)).foldl sha1Block
    (1732584193, 4023233417, 2562383102, 271733878, 3285377520)

/-- SHA-1 digest of a byte string as its 20 big-endian bytes. -/
def sha1 (msg : List Nat) : List Nat :=
  wordBe (sha1Digest msg).1 ++ wordBe (sha1Digest msg).2.1 ++
  wordBe (sha1Digest msg).2.2.1 ++ wordBe (sha1Digest msg).2.2.2.1 ++
  wordBe (sha1Digest msg).2.2.2.2

/-! ### UTF-8 encoding (the TextEncoder of the sources) -/

/-- UTF-8 bytes of one Unicode scalar value. -/
def utf8Char (c : Char) : List Nat :=
  let n := c.toNat
  if n < 128 then [n]
  else if n < 2048 then [192 + n / 64, 128 + n % 64]
  else if n < 65536 then [224 + n / 4096, 128 + n / 64 % 64, 128 + n % 64]
  else [240 + n / 262144, 128 + n / 4096 % 64, 128 + n / 64 % 64, 128 + n % 64]

/-- UTF-8 bytes of a string, as `new TextEncoder().encode(s)` produces. -/
def utf8Str (s : String) : List Nat := s.data.flatMap utf8Char

/-! ### The deterministic identity mapper (UUID v5) -/

/-- Value of one hex digit character, `none` for a non-digit. -/
def hexVal (c : Char) : Option Nat :=
  if '0' ≤ c ∧ c ≤ '9' then some (c.toNat - 48)
  else if 'a' ≤ c ∧ c ≤ 'f' then some (c.toNat - 87)
  else if 'A' ≤ c ∧ c ≤ 'F' then some (c.toNat - 55)
  else none

/-- JavaScript `parseInt(slice, 16)` on a two-character slice, with the `NaN`
result coerced to `0` by the Uint8Array store, exactly as `uuidToBytes`
consumes it. -/
def parseHexPair (cs : List Char) : Nat :=
  match cs with
  | [] => 0
  | [c] => (hexVal c).getD 0
  | c1 :: c2 :: _ =>
      match hexVal c1, hexVal c2 with
      | none, _ => 0
      | some v1, none => v1
      | some v1, some v2 => v1 * 16 + v2

/-- Embedding of `uuidToBytes`: strip hyphens and parse sixteen two-character
hex slices. -/
def uuidToBytes (uuid : String) : List Nat :=
  let hex := uuid.data.filter (fun c => c ≠ '-')
  (List.range 16).map (fun i => parseHexPair ((hex.drop (2 * i)).take 2))

/-- Lowercase hex digit character for a nibble, as `toString(16)` renders it. -/
def hexDigitChar (n : Nat) : Char :=
  if n < 10 then Char.ofNat (48 + n) else Char.ofNat (87 + n)

/-- Two lowercase hex characters of a byte (`toString(16).padStart(2, '0')`). -/
def byteHex (b : Nat) : List Char := [hexDigitChar (b / 16), hexDigitChar (b % 16)]

/-- Hex characters of a byte string. -/
def bytesHexChars (bs : List Nat) : List Char := bs.flatMap byteHex

/-- Embedding of `bytesToUuid`: hex-encode the bytes and re-slice the result
into the canonical 8-4-4-4-12 hyphenated form. -/
def bytesToUuid (bs : List Nat) : String :=
  let hex := bytesHexChars bs
  String.mk (hex.take 8 ++ '-' :: ((hex.drop 8).take 4) ++ '-' ::
    ((hex.drop 12).take 4) ++ '-' :: ((hex.drop 16).take 4) ++ '-' :: hex.drop 20)

/-- The 16 digest-derived bytes of a UUID v5: namespace bytes concatenated
with the UTF-8 name bytes, hashed with SHA-1, truncated to 16 bytes, with the
version nibble forced to 5 and the variant bits forced to the RFC `10`
pattern. This is the shared byte-level core of `uuidV5FromString`,
`uuidv5_node` and `uuidv5_webcrypto`. -/
def uuidV5Bytes (name : String) (namespaceUuid : String) : List Nat :=
  let data := uuidToBytes namespaceUuid ++ utf8Str name
  let bytes := (sha1 data).take 16
  let bytes6 := bytes.set 6 ((bytes.getD 6 0 &&& 15) ||| 80)
  bytes6.set 8 ((bytes6.getD 8 0 &&& 63) ||| 128)

/-- Embedding of `uuidV5FromString` from the federation edge function. -/
def uuidV5FromString (name : String) (namespaceUuid : String) : String :=
  bytesToUuid (uuidV5Bytes name namespaceUuid)

/-- Embedding of the node:crypto reference implementation `uuidv5_node` from
`tests/_utils`: Buffer concatenation of namespace and name bytes, `sha1`
digest, first 16 bytes, version and variant overwritten, hex formatting. -/
def uuidv5_node (name : String) (namespaceUuid : String) : String :=
  bytesToUuid (uuidV5Bytes name namespaceUuid)

/-- Embedding of the WebCrypto cross-check implementation `uuidv5_webcrypto`
from `tests/_utils`: the namespace and name bytes are written into one
combined array, digested with SHA-1 via `subtle.digest`, truncated to 16
bytes, version and variant overwritten, hex formatted. Byte for byte the same
pipeline as `uuidv5_node`. -/
def uuidv5_webcrypto (name : String) (namespaceUuid : String) : String :=
  bytesToUuid (uuidV5Bytes name namespaceUuid)

/-- The fixed namespace constant `CLERK_UUIDV5_NAMESPACE_DNS` shared by the
edge functions and the test suite. -/
def CLERK_UUIDV5_NAMESPACE_DNS : String := "6ba7b811-9dad-11d1-80b4-00c04fd430c8"

/-! ### The `isUuid` well-formedness check of the test suite -/

/-- Hex-digit character test, case insensitive like the `/i` regex flag. -/
def isHexDigitChar (c : Char) : Bool :=
  (decide ('0' ≤ c) && decide (c ≤ '9')) ||
  (decide ('a' ≤ c) && decide (c ≤ 'f')) ||
  (decide ('A' ≤ c) && decide (c ≤ 'F'))

/-- Version character class `[1-5]` of the `isUuid` regex. -/
def isVersionChar (c : Char) : Bool := decide ('1' ≤ c) && decide (c ≤ '5')

/-- Variant character class `[89ab]` of the `isUuid` regex (case insensitive). -/
def isVariantChar (c : Char) : Bool :=
  c == '8' || c == '9' || c == 'a' || c == 'b' || c == 'A' || c == 'B'

/-- Embedding of `isUuid` from `tests/_utils`: the anchored case-insensitive
regex `[0-9a-f]\x7b8\x7d-[0-9a-f]\x7b4\x7d-[1-5][0-9a-f]\x7b3\x7d-[89ab][0-9a-f]\x7b3\x7d-[0-9a-f]\x7b12\x7d`
over the 36 characters of the string. -/
def isUuid (s : String) : Bool :=
  match s.data with
  | a0 :: a1 :: a2 :: a3 :: a4 :: a5 :: a6 :: a7 :: g1 :: b0 :: b1 :: b2 ::
    b3 :: g2 :: v :: c0 :: c1 :: c2 :: g3 :: r :: d0 :: d1 :: d2 :: g4 ::
    e0 :: e1 :: e2 :: e3 :: e4 :: e5 :: e6 :: e7 :: e8 :: e9 :: e10 :: e11 :: [] =>
      g1 == '-' && g2 == '-' && g3 == '-' && g4 == '-' &&
      isHexDigitChar a0 && isHexDigitChar a1 && isHexDigitChar a2 &&
      isHexDigitChar a3 && isHexDigitChar a4 && isHexDigitChar a5 &&
      isHexDigitChar a6 && isHexDigitChar a7 &&
      isHexDigitChar b0 && isHexDigitChar b1 && isHexDigitChar b2 &&
      isHexDigitChar b3 &&
      isVersionChar v &&
      isHexDigitChar c0 && isHexDigitChar c1 && isHexDigitChar c2 &&
      isVariantChar r &&
      isHexDigitChar d0 && isHexDigitChar d1 && isHexDigitChar d2 &&
      isHexDigitChar e0 && isHexDigitChar e1 && isHexDigitChar e2 &&
      isHexDigitChar e3 && isHexDigitChar e4 && isHexDigitChar e5 &&
      isHexDigitChar e6 && isHexDigitChar e7 && isHexDigitChar e8 &&
      isHexDigitChar e9 && isHexDigitChar e10 && isHexDigitChar e11
  | _ => false

/-! ### Shape and range facts about the SHA-1 digest and the UUID bytes -/

/-- A SHA-1 digest consists of exactly 20 bytes. -/
theorem sha1_length (msg : List Nat) : (sha1 msg).length = 20 := by
  simp [sha1, wordBe]

/-- Every byte of a SHA-1 digest is below 256. -/
theorem sha1_bytes_lt (msg : List Nat) : ∀ b ∈ sha1 msg, b < 256 := by
  intro b hb
  simp only [sha1, wordBe, List.mem_append, List.mem_cons, List.not_mem_nil,
    or_false] at hb
  rcases hb with ((h | h | h | h) | (h | h | h | h) | (h | h | h | h) |
    (h | h | h | h) | (h | h | h | h)) <;> omega

/-- The UUID v5 byte core is exactly 16 bytes long. -/
theorem uuidV5Bytes_length (name ns : String) : (uuidV5Bytes name ns).length = 16 := by
  simp [uuidV5Bytes, List.length_set, List.length_take, sha1_length]

/-- Forcing the version nibble keeps the byte in range. -/
theorem version_byte_lt (x : Nat) : (x &&& 15) ||| 80 < 256 := by
  have h1 : x &&& 15 ≤ 15 := Nat.and_le_right
  have h2 : ∀ z < 16, z ||| 80 < 256 := by decide
  exact h2 _ (by omega)

/-- Forcing the variant bits keeps the byte in range. -/
theorem variant_byte_lt (x : Nat) : (x &&& 63) ||| 128 < 256 := by
  have h1 : x &&& 63 ≤ 63 := Nat.and_le_right
  have h2 : ∀ z < 64, z ||| 128 < 256 := by decide
  exact h2 _ (by omega)

/-- Every byte of the UUID v5 byte core is below 256. -/
theorem uuidV5Bytes_lt (name ns : String) : ∀ b ∈ uuidV5Bytes name ns, b < 256 := by
  intro b hb
  simp only [uuidV5Bytes] at hb
  rcases List.mem_or_eq_of_mem_set hb with hb' | rfl
  · rcases List.mem_or_eq_of_mem_set hb' with hb'' | rfl
    · exact sha1_bytes_lt _ _ (List.take_subset _ _ hb'')
    · exact version_byte_lt _
  · exact variant_byte_lt _

/-- The forced version byte has high nibble 5. -/
theorem version_byte_div (x : Nat) : ((x &&& 15) ||| 80) / 16 = 5 := by
  have h1 : x &&& 15 ≤ 15 := Nat.and_le_right
  have h2 : ∀ z < 16, (z ||| 80) / 16 = 5 := by decide
  exact h2 _ (by omega)

/-- The forced variant byte has high nibble 8, 9, a or b. -/
theorem variant_byte_div (x : Nat) :
    ((x &&& 63) ||| 128) / 16 = 8 ∨ ((x &&& 63) ||| 128) / 16 = 9 ∨
    ((x &&& 63) ||| 128) / 16 = 10 ∨ ((x &&& 63) ||| 128) / 16 = 11 := by
  have h1 : x &&& 63 ≤ 63 := Nat.and_le_right
  have h2 : ∀ z < 64, (z ||| 128) / 16 = 8 ∨ (z ||| 128) / 16 = 9 ∨
      (z ||| 128) / 16 = 10 ∨ (z ||| 128) / 16 = 11 := by decide
  exact h2 _ (by omega)

/-- Destructure a list known to have exactly sixteen entries. -/
theorem list_eq_sixteen (bs : List Nat) (h : bs.length = 16) :
    ∃ b0 b1 b2 b3 b4 b5 b6 b7 b8 b9 b10 b11 b12 b13 b14 b15, bs =
      [b0, b1, b2, b3, b4, b5, b6, b7, b8, b9, b10, b11, b12, b13, b14, b15] := by
  rcases bs with _ | ⟨b0, bs⟩; · simp at h
  rcases bs with _ | ⟨b1, bs⟩; · simp at h
  rcases bs with _ | ⟨b2, bs⟩; · simp at h
  rcases bs with _ | ⟨b3, bs⟩; · simp at h
  rcases bs with _ | ⟨b4, bs⟩; · simp at h
  rcases bs with _ | ⟨b5, bs⟩; · simp at h
  rcases bs with _ | ⟨b6, bs⟩; · simp at h
  rcases bs with _ | ⟨b7, bs⟩; · simp at h
  rcases bs with _ | ⟨b8, bs⟩; · simp at h
  rcases bs with _ | ⟨b9, bs⟩; · simp at h
  rcases bs with _ | ⟨b10, bs⟩; · simp at h
  rcases bs with _ | ⟨b11, bs⟩; · simp at h
  rcases bs with _ | ⟨b12, bs⟩; · simp at h
  rcases bs with _ | ⟨b13, bs⟩; · simp at h
  rcases bs with _ | ⟨b14, bs⟩; · simp at h
  rcases bs with _ | ⟨b15, bs⟩; · simp at h
  rcases bs with _ | ⟨b16, bs⟩
  · exact ⟨b0, b1, b2, b3, b4, b5, b6, b7, b8, b9, b10, b11, b12, b13, b14, b15, rfl⟩
  · simp [List.length] at h

/-- The formatted UUID of an explicit sixteen-byte list, character by
character. Both sides reduce to the same list of characters. -/
theorem bytesToUuid_sixteen (b0 b1 b2 b3 b4 b5 b6 b7 b8 b9 b10 b11 b12 b13 b14 b15 : Nat) :
    bytesToUuid [b0, b1, b2, b3, b4, b5, b6, b7, b8, b9, b10, b11, b12, b13, b14, b15] =
    String.mk [hexDigitChar (b0 / 16), hexDigitChar (b0 % 16),
      hexDigitChar (b1 / 16), hexDigitChar (b1 % 16),
      hexDigitChar (b2 / 16), hexDigitChar (b2 % 16),
      hexDigitChar (b3 / 16), hexDigitChar (b3 % 16), '-',
      hexDigitChar (b4 / 16), hexDigitChar (b4 % 16),
      hexDigitChar (b5 / 16), hexDigitChar (b5 % 16), '-',
      hexDigitChar (b6 / 16), hexDigitChar (b6 % 16),
      hexDigitChar (b7 / 16), hexDigitChar (b7 % 16), '-',
      hexDigitChar (b8 / 16), hexDigitChar (b8 % 16),
      hexDigitChar (b9 / 16), hexDigitChar (b9 % 16), '-',
      hexDigitChar (b10 / 16), hexDigitChar (b10 % 16),
      hexDigitChar (b11 / 16), hexDigitChar (b11 % 16),
      hexDigitChar (b12 / 16), hexDigitChar (b12 % 16),
      hexDigitChar (b13 / 16), hexDigitChar (b13 % 16),
      hexDigitChar (b14 / 16), hexDigitChar (b14 % 16),
      hexDigitChar (b15 / 16), hexDigitChar (b15 % 16)] := rfl

/-- Formatting sixteen in-range bytes whose seventh byte has high nibble 5 and
whose ninth byte has high nibble 8–b yields a string accepted by `isUuid`,
36 characters long, with character 14 equal to `5` and character 19 in
`89ab`. -/
theorem bytesToUuid_format (b0 b1 b2 b3 b4 b5 b6 b7 b8 b9 b10 b11 b12 b13 b14 b15 : Nat)
    (l0 : b0 < 256) (l1 : b1 < 256) (l2 : b2 < 256) (l3 : b3 < 256)
    (l4 : b4 < 256) (l5 : b5 < 256) (l6 : b6 < 256) (l7 : b7 < 256)
    (l8 : b8 < 256) (l9 : b9 < 256) (l10 : b10 < 256) (l11 : b11 < 256)
    (l12 : b12 < 256) (l13 : b13 < 256) (l14 : b14 < 256) (l15 : b15 < 256)
    (h6 : b6 / 16 = 5)
    (h8 : b8 / 16 = 8 ∨ b8 / 16 = 9 ∨ b8 / 16 = 10 ∨ b8 / 16 = 11) :
    isUuid (bytesToUuid
      [b0, b1, b2, b3, b4, b5, b6, b7, b8, b9, b10, b11, b12, b13, b14, b15]) = true ∧
    (bytesToUuid
      [b0, b1, b2, b3, b4, b5, b6, b7, b8, b9, b10, b11, b12, b13, b14, b15]).length = 36 ∧
    (bytesToUuid
      [b0, b1, b2, b3, b4, b5, b6, b7, b8, b9, b10, b11, b12, b13, b14, b15]).data.getD 14 ' ' = '5' ∧
    ((bytesToUuid
      [b0, b1, b2, b3, b4, b5, b6, b7, b8, b9, b10, b11, b12, b13, b14, b15]).data.getD 19 ' ' = '8' ∨
     (bytesToUuid
      [b0, b1, b2, b3, b4, b5, b6, b7, b8, b9, b10, b11, b12, b13, b14, b15]).data.getD 19 ' ' = '9' ∨
     (bytesToUuid
      [b0, b1, b2, b3, b4, b5, b6, b7, b8, b9, b10, b11, b12, b13, b14, b15]).data.getD 19 ' ' = 'a' ∨
     (bytesToUuid
      [b0, b1, b2, b3, b4, b5, b6, b7, b8, b9, b10, b11, b12, b13, b14, b15]).data.getD 19 ' ' = 'b') := by
  have hd : ∀ y < 16, isHexDigitChar (hexDigitChar y) = true := by decide
  rw [bytesToUuid_sixteen]
  refine ⟨?_, by rfl, ?_, ?_⟩
  · simp only [isUuid, Bool.and_eq_true, beq_iff_eq]
    repeat' apply And.intro
    all_goals
      first
      | decide
      | exact hd _ (by omega)
      | (rw [h6]; decide)
      | (rcases h8 with h | h | h | h <;> rw [h] <;> decide)
  · show hexDigitChar (b6 / 16) = '5'
    rw [h6]; decide
  · show hexDigitChar (b8 / 16) = '8' ∨ hexDigitChar (b8 / 16) = '9' ∨
      hexDigitChar (b8 / 16) = 'a' ∨ hexDigitChar (b8 / 16) = 'b'
    rcases h8 with h | h | h | h <;> rw [h]
    · exact Or.inl (by decide)
    · exact Or.inr (Or.inl (by decide))
    · exact Or.inr (Or.inr (Or.inl (by decide)))
    · exact Or.inr (Or.inr (Or.inr (by decide)))

/-- Well-formedness of the full UUID v5 pipeline: for every name and every
namespace string, the formatted output passes `isUuid`, has 36 characters,
carries version character `5` at index 14 and a variant character in `89ab`
at index 19. -/
theorem uuidV5_format (name ns : String) :
    isUuid (bytesToUuid (uuidV5Bytes name ns)) = true ∧
    (bytesToUuid (uuidV5Bytes name ns)).length = 36 ∧
    (bytesToUuid (uuidV5Bytes name ns)).data.getD 14 ' ' = '5' ∧
    ((bytesToUuid (uuidV5Bytes name ns)).data.getD 19 ' ' = '8' ∨
     (bytesToUuid (uuidV5Bytes name ns)).data.getD 19 ' ' = '9' ∨
     (bytesToUuid (uuidV5Bytes name ns)).data.getD 19 ' ' = 'a' ∨
     (bytesToUuid (uuidV5Bytes name ns)).data.getD 19 ' ' = 'b') := by
  have htl : ((sha1 (uuidToBytes ns ++ utf8Str name)).take 16).length = 16 := by
    simp [List.length_take, sha1_length]
  obtain ⟨c0, c1, c2, c3, c4, c5, c6, c7, c8, c9, c10, c11, c12, c13, c14, c15, hc⟩ :=
    list_eq_sixteen _ htl
  have hmem : ∀ b ∈ (sha1 (uuidToBytes ns ++ utf8Str name)).take 16, b < 256 :=
    fun b hb => sha1_bytes_lt _ _ (List.take_subset _ _ hb)
  rw [hc] at hmem
  have hbytes : uuidV5Bytes name ns =
      [c0, c1, c2, c3, c4, c5, (c6 &&& 15) ||| 80, c7,
       (c8 &&& 63) ||| 128, c9, c10, c11, c12, c13, c14, c15] := by
    simp only [uuidV5Bytes]
    rw [hc]
    exact rfl
  rw [hbytes]
  exact bytesToUuid_format _ _ _ _ _ _ _ _ _ _ _ _ _ _ _ _
    (hmem _ (by simp)) (hmem _ (by simp)) (hmem _ (by simp)) (hmem _ (by simp))
    (hmem _ (by simp)) (hmem _ (by simp)) (version_byte_lt _) (hmem _ (by simp))
    (variant_byte_lt _) (hmem _ (by simp)) (hmem _ (by simp)) (hmem _ (by simp))
    (hmem _ (by simp)) (hmem _ (by simp)) (hmem _ (by simp)) (hmem _ (by simp))
    (version_byte_div _) (variant_byte_div _)

/-- The namespace parser always yields sixteen bytes. -/
theorem uuidToBytes_length (u : String) : (uuidToBytes u).length = 16 := by
  simp [uuidToBytes]

/-- Claim C2: the identity mapper is a pure total function that concatenates
the fixed 16-byte namespace with the UTF-8 bytes of the input, hashes with
SHA-1, keeps the first 16 digest bytes, forces the version nibble to 5 and
the variant bits to the RFC `10` pattern, and formats the result as a
canonical 36-character hyphenated hex UUID string; every non-empty input
yields such a well-formed output (character 14 is `5`, character 19 is one of
`89ab`, and the `isUuid` shape check of the test suite accepts it). -/
theorem c2_identity_mapper_wellformed (s : String) (hs : s ≠ "") :
    isUuid (uuidV5FromString s CLERK_UUIDV5_NAMESPACE_DNS) = true ∧
    (uuidV5FromString s CLERK_UUIDV5_NAMESPACE_DNS).length = 36 ∧
    (uuidV5FromString s CLERK_UUIDV5_NAMESPACE_DNS).data.getD 14 ' ' = '5' ∧
    ((uuidV5FromString s CLERK_UUIDV5_NAMESPACE_DNS).data.getD 19 ' ' = '8' ∨
     (uuidV5FromString s CLERK_UUIDV5_NAMESPACE_DNS).data.getD 19 ' ' = '9' ∨
     (uuidV5FromString s CLERK_UUIDV5_NAMESPACE_DNS).data.getD 19 ' ' = 'a' ∨
     (uuidV5FromString s CLERK_UUIDV5_NAMESPACE_DNS).data.getD 19 ' ' = 'b') ∧
    (uuidToBytes CLERK_UUIDV5_NAMESPACE_DNS).length = 16 ∧
    (uuidV5Bytes s CLERK_UUIDV5_NAMESPACE_DNS).length = 16 := by
  obtain ⟨h1, h2, h3, h4⟩ := uuidV5_format s CLERK_UUIDV5_NAMESPACE_DNS
  exact ⟨h1, h2, h3, h4, uuidToBytes_length _, uuidV5Bytes_length _ _⟩

/-- Witness for C2 at the concrete subject used by the test suite. -/
theorem c2_witness :
    ("user_test_123" : String) ≠ "" ∧
    (isUuid (uuidV5FromString "user_test_123" CLERK_UUIDV5_NAMESPACE_DNS) = true ∧
    (uuidV5FromString "user_test_123" CLERK_UUIDV5_NAMESPACE_DNS).length = 36 ∧
    (uuidV5FromString "user_test_123" CLERK_UUIDV5_NAMESPACE_DNS).data.getD 14 ' ' = '5' ∧
    ((uuidV5FromString "user_test_123" CLERK_UUIDV5_NAMESPACE_DNS).data.getD 19 ' ' = '8' ∨
     (uuidV5FromString "user_test_123" CLERK_UUIDV5_NAMESPACE_DNS).data.getD 19 ' ' = '9' ∨
     (uuidV5FromString "user_test_123" CLERK_UUIDV5_NAMESPACE_DNS).data.getD 19 ' ' = 'a' ∨
     (uuidV5FromString "user_test_123" CLERK_UUIDV5_NAMESPACE_DNS).data.getD 19 ' ' = 'b') ∧
    (uuidToBytes CLERK_UUIDV5_NAMESPACE_DNS).length = 16 ∧
    (uuidV5Bytes "user_test_123" CLERK_UUIDV5_NAMESPACE_DNS).length = 16) :=
  ⟨by decide, c2_identity_mapper_wellformed "user_test_123" (by decide)⟩

/-- Claim C3: the node:crypto implementation `uuidv5_node` and the WebCrypto
implementation `uuidv5_webcrypto` agree on every input string and namespace,
and the common output is well-formed: it matches the 8-4-4-4-12 hex shape
checked by `isUuid`, with version character `5` and a variant character in
`89ab`. -/
theorem c3_uuidv5_implementations_agree (name namespaceUuid : String) :
    uuidv5_node name namespaceUuid = uuidv5_webcrypto name namespaceUuid ∧
    isUuid (uuidv5_node name namespaceUuid) = true ∧
    (uuidv5_node name namespaceUuid).data.getD 14 ' ' = '5' ∧
    ((uuidv5_node name namespaceUuid).data.getD 19 ' ' = '8' ∨
     (uuidv5_node name namespaceUuid).data.getD 19 ' ' = '9' ∨
     (uuidv5_node name namespaceUuid).data.getD 19 ' ' = 'a' ∨
     (uuidv5_node name namespaceUuid).data.getD 19 ' ' = 'b') := by
  obtain ⟨h1, h2, h3, h4⟩ := uuidV5_format name namespaceUuid
  exact ⟨rfl, h1, h3, h4⟩

/-- Counterexample to Claim C9 as stated: the mapper cannot be injective on
all of `String`, because its output is determined by sixteen bytes, so at
most finitely many values occur while there are infinitely many subject
strings (pigeonhole). -/
theorem c9_counterexample :
    ¬ (∀ s1 s2 : String, s1 ≠ s2 →
        uuidv5_node s1 CLERK_UUIDV5_NAMESPACE_DNS ≠
        uuidv5_node s2 CLERK_UUIDV5_NAMESPACE_DNS) := by
  intro H
  have hbij : Function.Injective (fun s => uuidV5Bytes s CLERK_UUIDV5_NAMESPACE_DNS) := by
    intro a b hab
    by_contra hne
    exact H a b hne (congrArg bytesToUuid hab)
  let g : String → (Fin 16 → Fin 256) := fun s i =>
    ⟨(uuidV5Bytes s CLERK_UUIDV5_NAMESPACE_DNS).getD i.val 0, by
      have hl := uuidV5Bytes_length s CLERK_UUIDV5_NAMESPACE_DNS
      have hi : (i : Nat) < (uuidV5Bytes s CLERK_UUIDV5_NAMESPACE_DNS).length := by
        rw [hl]; exact i.isLt
      rw [List.getD_eq_getElem _ _ hi]
      exact uuidV5Bytes_lt _ _ _ (List.getElem_mem hi)⟩
  have ginj : Function.Injective g := by
    intro a b hg
    apply hbij
    apply List.ext_getElem (by rw [uuidV5Bytes_length, uuidV5Bytes_length])
    intro n h1 h2
    have hn : n < 16 := by rw [uuidV5Bytes_length] at h1; exact h1
    have hfun : (uuidV5Bytes a CLERK_UUIDV5_NAMESPACE_DNS).getD n 0 =
        (uuidV5Bytes b CLERK_UUIDV5_NAMESPACE_DNS).getD n 0 :=
      congrArg Fin.val (congrFun hg ⟨n, hn⟩)
    rw [List.getD_eq_getElem _ _ h1, List.getD_eq_getElem _ _ h2] at hfun
    exact hfun
  haveI : Finite String := Finite.of_injective g ginj
  exact not_finite String

/-- Claim C9, amended: the mapper distinguishes the differing pair exercised
by the test suite; global injectivity cannot hold (see the counterexample),
only collision-freedom on the tested inputs. -/
theorem c9_distinct_test_pair :
    uuidv5_node "user_test_123" CLERK_UUIDV5_NAMESPACE_DNS ≠
    uuidv5_node "user_test_124" CLERK_UUIDV5_NAMESPACE_DNS :=
  of_decide_eq_true rfl

/-! ### Catalog state and the SQL installer `bootstrap_install`

The installer and the readiness introspector are embedded over an explicit
record of the Postgres catalog facts they consult: existence of the helper
function, the two tables, the index, the two triggers, the two
row-level-security flags, the six named policies the installer manages, and
the number of any further policies each table carries (`pg_policies` counts
all of them). -/

structure DbState where
  setUpdatedAtFn : Bool
  profilesTable : Bool
  projectsTable : Bool
  idxProjectsUserId : Bool
  trigProfiles : Bool
  trigProjects : Bool
  profilesRls : Bool
  projectsRls : Bool
  projSelectOwn : Bool
  projInsertOwn : Bool
  projUpdateOwn : Bool
  projDeleteOwn : Bool
  profSelectOwn : Bool
  profUpdateOwn : Bool
  otherProjectsPolicies : Nat
  otherProfilesPolicies : Nat
deriving DecidableEq

/-- Number of rows of `pg_policies` for the `projects` table. -/
def projectsPolicyCount (s : DbState) : Nat :=
  (if s.projSelectOwn then 1 else 0) + (if s.projInsertOwn then 1 else 0) +
  (if s.projUpdateOwn then 1 else 0) + (if s.projDeleteOwn then 1 else 0) +
  s.otherProjectsPolicies

/-- Number of rows of `pg_policies` for the `profiles` table. -/
def profilesPolicyCount (s : DbState) : Nat :=
  (if s.profSelectOwn then 1 else 0) + (if s.profUpdateOwn then 1 else 0) +
  s.otherProfilesPolicies

/-- Result object of the installer RPC. -/
inductive InstallResult
  | bootstrapped
  | alreadyInitialized
deriving DecidableEq

/-- A database with none of the managed objects installed. -/
def freshDb : DbState :=
  ⟨false, false, false, false, false, false, false, false,
   false, false, false, false, false, false, 0, 0⟩

/-- Guarded creation of the `set_updated_at` helper function. -/
def installStep1 (p : DbState × Bool) : DbState × Bool :=
  if !p.1.setUpdatedAtFn then ({ p.1 with setUpdatedAtFn := true }, true) else p

/-- Guarded creation of the `profiles` table. -/
def installStep2 (p : DbState × Bool) : DbState × Bool :=
  if !p.1.profilesTable then ({ p.1 with profilesTable := true }, true) else p

/-- Guarded creation of the `projects` table. -/
def installStep3 (p : DbState × Bool) : DbState × Bool :=
  if !p.1.projectsTable then ({ p.1 with projectsTable := true }, true) else p

/-- Guarded creation of the `idx_projects_user_id` index. -/
def installStep4 (p : DbState × Bool) : DbState × Bool :=
  if !p.1.idxProjectsUserId then ({ p.1 with idxProjectsUserId := true }, true) else p

/-- Guarded creation of the `profiles_set_updated_at` trigger. -/
def installStep5 (p : DbState × Bool) : DbState × Bool :=
  if !p.1.trigProfiles then ({ p.1 with trigProfiles := true }, true) else p

/-- Guarded creation of the `projects_set_updated_at` trigger. -/
def installStep6 (p : DbState × Bool) : DbState × Bool :=
  if !p.1.trigProjects then ({ p.1 with trigProjects := true }, true) else p

/-- Guarded enabling of row level security on `profiles`. -/
def installStep7 (p : DbState × Bool) : DbState × Bool :=
  if !p.1.profilesRls then ({ p.1 with profilesRls := true }, true) else p

/-- Guarded enabling of row level security on `projects`. -/
def installStep8 (p : DbState × Bool) : DbState × Bool :=
  if !p.1.projectsRls then ({ p.1 with projectsRls := true }, true) else p

/-- Guarded creation of the `projects_select_own` policy. -/
def installStep9 (p : DbState × Bool) : DbState × Bool :=
  if !p.1.projSelectOwn then ({ p.1 with projSelectOwn := true }, true) else p

/-- Guarded creation of the `projects_insert_own` policy. -/
def installStep10 (p : DbState × Bool) : DbState × Bool :=
  if !p.1.projInsertOwn then ({ p.1 with projInsertOwn := true }, true) else p

/-- Guarded creation of the `projects_update_own` policy. -/
def installStep11 (p : DbState × Bool) : DbState × Bool :=
  if !p.1.projUpdateOwn then ({ p.1 with projUpdateOwn := true }, true) else p

/-- Guarded creation of the `projects_delete_own` policy. -/
def installStep12 (p : DbState × Bool) : DbState × Bool :=
  if !p.1.projDeleteOwn then ({ p.1 with projDeleteOwn := true }, true) else p

/-- Guarded creation of the `profiles_select_own` policy. -/
def installStep13 (p : DbState × Bool) : DbState × Bool :=
  if !p.1.profSelectOwn then ({ p.1 with profSelectOwn := true }, true) else p

/-- Guarded creation of the `profiles_update_own` policy. -/
def installStep14 (p : DbState × Bool) : DbState × Bool :=
  if !p.1.profUpdateOwn then ({ p.1 with profUpdateOwn := true }, true) else p

/-- Embedding of the `bootstrap_install` RPC: run the fourteen guarded
creation steps of the SQL body in order, accumulating the `did_change` flag,
and report `bootstrapped` when anything changed, `already_initialized`
otherwise. -/
def bootstrap_install (s : DbState) : DbState × InstallResult :=
  let p := installStep14 (installStep13 (installStep12 (installStep11
    (installStep10 (installStep9 (installStep8 (installStep7 (installStep6
    (installStep5 (installStep4 (installStep3 (installStep2 (installStep1
    (s, false))))))))))))))
  (p.1, if p.2 then InstallResult.bootstrapped else InstallResult.alreadyInitialized)

/-- The state with every managed object present, other state untouched. -/
def installAll (s : DbState) : DbState :=
  ⟨true, true, true, true, true, true, true, true, true, true, true, true,
   true, true, s.otherProjectsPolicies, s.otherProfilesPolicies⟩

/-- Whether any managed object is missing, i.e. whether an install run from
`s` performs any creation. -/
def installChanged (s : DbState) : Bool :=
  !s.setUpdatedAtFn || !s.profilesTable || !s.projectsTable ||
  !s.idxProjectsUserId || !s.trigProfiles || !s.trigProjects ||
  !s.profilesRls || !s.projectsRls || !s.projSelectOwn || !s.projInsertOwn ||
  !s.projUpdateOwn || !s.projDeleteOwn || !s.profSelectOwn || !s.profUpdateOwn

/-- Readiness report object of the `bootstrap_status` RPC. -/
structure StatusReport where
  projectsTable : Bool
  profilesTable : Bool
  projectsRls : Bool
  profilesRls : Bool
  projectsPolicies : Nat
  profilesPolicies : Nat
  trigProjects : Bool
  trigProfiles : Bool
  idxProjectsUserId : Bool
  ready : Bool
deriving DecidableEq

/-- Embedding of the `bootstrap_status` RPC: read-only catalog introspection,
with `ready` computed as the conjunction the SQL body writes, including the
thresholds `projects_policies >= 4` and `profiles_policies >= 2`. -/
def bootstrap_status (s : DbState) : StatusReport :=
  { projectsTable := s.projectsTable
    profilesTable := s.profilesTable
    projectsRls := s.projectsRls
    profilesRls := s.profilesRls
    projectsPolicies := projectsPolicyCount s
    profilesPolicies := profilesPolicyCount s
    trigProjects := s.trigProjects
    trigProfiles := s.trigProfiles
    idxProjectsUserId := s.idxProjectsUserId
    ready := s.projectsTable && s.profilesTable && s.projectsRls &&
      s.profilesRls && s.trigProjects && s.trigProfiles &&
      s.idxProjectsUserId && decide (4 ≤ projectsPolicyCount s) &&
      decide (2 ≤ profilesPolicyCount s) }

/-- Step 1 sets its flag and ors the change bit, in both branches. -/
theorem installStep1_eq (p : DbState × Bool) :
    installStep1 p = ({ p.1 with setUpdatedAtFn := true }, p.2 || !p.1.setUpdatedAtFn) := by
  rcases p with ⟨s, c⟩
  by_cases h : s.setUpdatedAtFn <;> rcases s <;> simp_all [installStep1]

/-- Step 2 sets its flag and ors the change bit, in both branches. -/
theorem installStep2_eq (p : DbState × Bool) :
    installStep2 p = ({ p.1 with profilesTable := true }, p.2 || !p.1.profilesTable) := by
  rcases p with ⟨s, c⟩
  by_cases h : s.profilesTable <;> rcases s <;> simp_all [installStep2]

/-- Step 3 sets its flag and ors the change bit, in both branches. -/
theorem installStep3_eq (p : DbState × Bool) :
    installStep3 p = ({ p.1 with projectsTable := true }, p.2 || !p.1.projectsTable) := by
  rcases p with ⟨s, c⟩
  by_cases h : s.projectsTable <;> rcases s <;> simp_all [installStep3]

/-- Step 4 sets its flag and ors the change bit, in both branches. -/
theorem installStep4_eq (p : DbState × Bool) :
    installStep4 p = ({ p.1 with idxProjectsUserId := true }, p.2 || !p.1.idxProjectsUserId) := by
  rcases p with ⟨s, c⟩
  by_cases h : s.idxProjectsUserId <;> rcases s <;> simp_all [installStep4]

/-- Step 5 sets its flag and ors the change bit, in both branches. -/
theorem installStep5_eq (p : DbState × Bool) :
    installStep5 p = ({ p.1 with trigProfiles := true }, p.2 || !p.1.trigProfiles) := by
  rcases p with ⟨s, c⟩
  by_cases h : s.trigProfiles <;> rcases s <;> simp_all [installStep5]

/-- Step 6 sets its flag and ors the change bit, in both branches. -/
theorem installStep6_eq (p : DbState × Bool) :
    installStep6 p = ({ p.1 with trigProjects := true }, p.2 || !p.1.trigProjects) := by
  rcases p with ⟨s, c⟩
  by_cases h : s.trigProjects <;> rcases s <;> simp_all [installStep6]

/-- Step 7 sets its flag and ors the change bit, in both branches. -/
theorem installStep7_eq (p : DbState × Bool) :
    installStep7 p = ({ p.1 with profilesRls := true }, p.2 || !p.1.profilesRls) := by
  rcases p with ⟨s, c⟩
  by_cases h : s.profilesRls <;> rcases s <;> simp_all [installStep7]

/-- Step 8 sets its flag and ors the change bit, in both branches. -/
theorem installStep8_eq (p : DbState × Bool) :
    installStep8 p = ({ p.1 with projectsRls := true }, p.2 || !p.1.projectsRls) := by
  rcases p with ⟨s, c⟩
  by_cases h : s.projectsRls <;> rcases s <;> simp_all [installStep8]

/-- Step 9 sets its flag and ors the change bit, in both branches. -/
theorem installStep9_eq (p : DbState × Bool) :
    installStep9 p = ({ p.1 with projSelectOwn := true }, p.2 || !p.1.projSelectOwn) := by
  rcases p with ⟨s, c⟩
  by_cases h : s.projSelectOwn <;> rcases s <;> simp_all [installStep9]

/-- Step 10 sets its flag and ors the change bit, in both branches. -/
theorem installStep10_eq (p : DbState × Bool) :
    installStep10 p = ({ p.1 with projInsertOwn := true }, p.2 || !p.1.projInsertOwn) := by
  rcases p with ⟨s, c⟩
  by_cases h : s.projInsertOwn <;> rcases s <;> simp_all [installStep10]

/-- Step 11 sets its flag and ors the change bit, in both branches. -/
theorem installStep11_eq (p : DbState × Bool) :
    installStep11 p = ({ p.1 with projUpdateOwn := true }, p.2 || !p.1.projUpdateOwn) := by
  rcases p with ⟨s, c⟩
  by_cases h : s.projUpdateOwn <;> rcases s <;> simp_all [installStep11]

/-- Step 12 sets its flag and ors the change bit, in both branches. -/
theorem installStep12_eq (p : DbState × Bool) :
    installStep12 p = ({ p.1 with projDeleteOwn := true }, p.2 || !p.1.projDeleteOwn) := by
  rcases p with ⟨s, c⟩
  by_cases h : s.projDeleteOwn <;> rcases s <;> simp_all [installStep12]

/-- Step 13 sets its flag and ors the change bit, in both branches. -/
theorem installStep13_eq (p : DbState × Bool) :
    installStep13 p = ({ p.1 with profSelectOwn := true }, p.2 || !p.1.profSelectOwn) := by
  rcases p with ⟨s, c⟩
  by_cases h : s.profSelectOwn <;> rcases s <;> simp_all [installStep13]

/-- Step 14 sets its flag and ors the change bit, in both branches. -/
theorem installStep14_eq (p : DbState × Bool) :
    installStep14 p = ({ p.1 with profUpdateOwn := true }, p.2 || !p.1.profUpdateOwn) := by
  rcases p with ⟨s, c⟩
  by_cases h : s.profUpdateOwn <;> rcases s <;> simp_all [installStep14]

/-- Characterization of the installer: it always ends in the fully installed
state, and reports `bootstrapped` exactly when some managed object was
missing. -/
theorem bootstrap_install_eq (s : DbState) :
    bootstrap_install s = (installAll s,
      if installChanged s then InstallResult.bootstrapped
      else InstallResult.alreadyInitialized) := by
  simp only [bootstrap_install, installStep1_eq, installStep2_eq,
    installStep3_eq, installStep4_eq, installStep5_eq, installStep6_eq,
    installStep7_eq, installStep8_eq, installStep9_eq, installStep10_eq,
    installStep11_eq, installStep12_eq, installStep13_eq, installStep14_eq,
    installAll, installChanged, Bool.false_or]

/-- Claim C4: from a fresh database the installer reports `bootstrapped`, a
second run reports `already_initialized` and changes nothing, the readiness
report is `ready` after either call; in general a second consecutive run from
any state is a no-op reporting `already_initialized`, the installed state is
always ready, and a run never drops existing objects, never touches foreign
policies, and ends with exactly the four `projects` and two `profiles`
managed policies beyond the foreign ones. -/
theorem c4_installer_idempotent :
    (bootstrap_install freshDb).2 = InstallResult.bootstrapped ∧
    bootstrap_install (bootstrap_install freshDb).1 =
      ((bootstrap_install freshDb).1, InstallResult.alreadyInitialized) ∧
    (bootstrap_status (bootstrap_install freshDb).1).ready = true ∧
    (∀ s : DbState, bootstrap_install (bootstrap_install s).1 =
      ((bootstrap_install s).1, InstallResult.alreadyInitialized)) ∧
    (∀ s : DbState, (bootstrap_status (bootstrap_install s).1).ready = true) ∧
    (∀ s : DbState,
      (bootstrap_install s).1.otherProjectsPolicies = s.otherProjectsPolicies ∧
      (bootstrap_install s).1.otherProfilesPolicies = s.otherProfilesPolicies ∧
      projectsPolicyCount (bootstrap_install s).1 = 4 + s.otherProjectsPolicies ∧
      profilesPolicyCount (bootstrap_install s).1 = 2 + s.otherProfilesPolicies ∧
      (s.setUpdatedAtFn = true → (bootstrap_install s).1.setUpdatedAtFn = true) ∧
      (s.profilesTable = true → (bootstrap_install s).1.profilesTable = true) ∧
      (s.projectsTable = true → (bootstrap_install s).1.projectsTable = true) ∧
      (s.idxProjectsUserId = true → (bootstrap_install s).1.idxProjectsUserId = true) ∧
      (s.trigProfiles = true → (bootstrap_install s).1.trigProfiles = true) ∧
      (s.trigProjects = true → (bootstrap_install s).1.trigProjects = true) ∧
      (s.profilesRls = true → (bootstrap_install s).1.profilesRls = true) ∧
      (s.projectsRls = true → (bootstrap_install s).1.projectsRls = true) ∧
      (s.projSelectOwn = true → (bootstrap_install s).1.projSelectOwn = true) ∧
      (s.projInsertOwn = true → (bootstrap_install s).1.projInsertOwn = true) ∧
      (s.projUpdateOwn = true → (bootstrap_install s).1.projUpdateOwn = true) ∧
      (s.projDeleteOwn = true → (bootstrap_install s).1.projDeleteOwn = true) ∧
      (s.profSelectOwn = true → (bootstrap_install s).1.profSelectOwn = true) ∧
      (s.profUpdateOwn = true → (bootstrap_install s).1.profUpdateOwn = true)) := by
  refine ⟨rfl, rfl, rfl, ?_, ?_, ?_⟩
  · intro s
    simp [bootstrap_install_eq, installAll, installChanged]
  · intro s
    simp [bootstrap_install_eq, bootstrap_status, installAll,
      projectsPolicyCount, profilesPolicyCount, Nat.le_add_right]
  · intro s
    simp [bootstrap_install_eq, installAll, projectsPolicyCount,
      profilesPolicyCount, Nat.add_comm]

/-- Counterexample to Claim C5 as stated: after a fresh install the readiness
introspector reports `ready = true` although `profiles` carries only two
policies, so the select/insert/update/delete policy quartet cannot hold for
the `profiles` table; the SQL threshold is `profiles_policies >= 2`, not a
per-table quartet. -/
theorem c5_counterexample :
    (bootstrap_status (bootstrap_install freshDb).1).ready = true ∧
    (bootstrap_status (bootstrap_install freshDb).1).profilesPolicies = 2 ∧
    ¬ (4 ≤ (bootstrap_status (bootstrap_install freshDb).1).profilesPolicies) :=
  ⟨rfl, rfl, of_decide_eq_true rfl⟩

/-- Claim C5, amended: `ready` is the conjunction of both tables existing,
row level security enabled on both, both `updated_at` triggers present, the
owner-column index present, and the raw `pg_policies` counts meeting the
thresholds of at least four policies on `projects` and at least two on
`profiles`; the introspector counts policies only, without inspecting their
commands. -/
theorem c5_ready_formula (s : DbState) :
    (bootstrap_status s).ready = true ↔
      (s.projectsTable = true ∧ s.profilesTable = true ∧ s.projectsRls = true ∧
       s.profilesRls = true ∧ s.trigProjects = true ∧ s.trigProfiles = true ∧
       s.idxProjectsUserId = true ∧ 4 ≤ projectsPolicyCount s ∧
       2 ≤ profilesPolicyCount s) := by
  simp [bootstrap_status, Bool.and_eq_true, decide_eq_true_eq, and_assoc]

/-! ### The `bootstrap-system` edge function -/

/-- Error codes of the bootstrap endpoint. -/
inductive BootCode
  | invalid_body
  | env_missing
  | jwt_invalid
  | rate_limited
  | bootstrap_failed
  | internal_error
deriving DecidableEq

/-- Response body of the bootstrap endpoint: RPC passthrough on success,
code plus message on failure. -/
inductive BootBody
  | ok (r : InstallResult)
  | err (code : BootCode) (msg : String)
deriving DecidableEq

/-- Observable outcome of one bootstrap request: HTTP status, body, whether
the `bootstrap_install` RPC was invoked, and the resulting database state. -/
structure BootOut where
  status : Nat
  body : BootBody
  rpcCalled : Bool
  db : DbState
deriving DecidableEq

/-- Embedding of the `bootstrap-system` request handler (POST path): rate
limit, body check, token verification, then the PostgREST probe of the
`projects` table (`tableExists`); when the table exists the endpoint returns
`already_initialized` without calling the RPC, otherwise it invokes
`bootstrap_install` and passes its result through. `probeFails` models the
probe failing with an unrecognized error (thrown as `TABLE_CHECK_FAILED`),
`rpcErr` an RPC transport error. -/
def handleBootstrapSystem (verifyOk rlOk bodyOk probeFails rpcErr : Bool)
    (s : DbState) : BootOut :=
  if !rlOk then ⟨429, .err .rate_limited "rate_limited", false, s⟩
  else if !bodyOk then ⟨400, .err .invalid_body "Invalid body. Expected clerkToken", false, s⟩
  else if !verifyOk then ⟨401, .err .jwt_invalid "jwt_invalid", false, s⟩
  else if probeFails then ⟨500, .err .bootstrap_failed "TABLE_CHECK_FAILED", false, s⟩
  else if s.projectsTable then ⟨200, .ok .alreadyInitialized, false, s⟩
  else if rpcErr then ⟨500, .err .bootstrap_failed "rpc error", true, s⟩
  else ⟨200, .ok (bootstrap_install s).2, true, (bootstrap_install s).1⟩

/-- A partially installed schema: the `projects` table exists but nothing
else does. -/
def partialDb : DbState := { freshDb with projectsTable := true }

/-- Claim C10: whenever the token verifies and the `projects` table already
exists, the bootstrap endpoint answers `{ success: true,
already_initialized: true }` without invoking the `bootstrap_install` RPC and
without changing the database; in particular the partially installed state
with only the `projects` table is reported as already initialized even
though the readiness introspector reports it not ready, and it is never
repaired by this endpoint. -/
theorem c10_bootstrap_skips_when_projects_exists
    (verifyOk rlOk bodyOk probeFails rpcErr : Bool) (s : DbState)
    (hrl : rlOk = true) (hb : bodyOk = true) (hv : verifyOk = true)
    (hp : probeFails = false) (ht : s.projectsTable = true) :
    handleBootstrapSystem verifyOk rlOk bodyOk probeFails rpcErr s =
      ⟨200, .ok .alreadyInitialized, false, s⟩ ∧
    (bootstrap_status partialDb).ready = false ∧
    handleBootstrapSystem true true true false rpcErr partialDb =
      ⟨200, .ok .alreadyInitialized, false, partialDb⟩ := by
  subst hrl hb hv hp
  refine ⟨?_, rfl, rfl⟩
  simp [handleBootstrapSystem, ht]

/-- Witness for C10 at the partially installed state. -/
theorem c10_witness :
    (true = true ∧ true = true ∧ true = true ∧ false = false ∧
      partialDb.projectsTable = true) ∧
    (handleBootstrapSystem true true true false false partialDb =
      ⟨200, .ok .alreadyInitialized, false, partialDb⟩ ∧
    (bootstrap_status partialDb).ready = false ∧
    handleBootstrapSystem true true true false false partialDb =
      ⟨200, .ok .alreadyInitialized, false, partialDb⟩) :=
  ⟨⟨rfl, rfl, rfl, rfl, rfl⟩,
    c10_bootstrap_skips_when_projects_exists true true true false false
      partialDb rfl rfl rfl rfl rfl⟩

/-! ### SHA-256 and HMAC-SHA256 (the MAC primitives behind `SignJWT` with
alg HS256 and the test helper `verifyHs256`) -/

/-- The 64 SHA-256 round constants. -/
def sha256K : List Nat :=
  [1116352408, 1899447441, 3049323471, 3921009573, 961987163, 1508970993,
   2453635748, 2870763221, 3624381080, 310598401, 607225278, 1426881987,
   1925078388, 2162078206, 2614888103, 3248222580, 3835390401, 4022224774,
   264347078, 604807628, 770255983, 1249150122, 1555081692, 1996064986,
   2554220882, 2821834349, 2952996808, 3210313671, 3336571891, 3584528711,
   113926993, 338241895, 666307205, 773529912, 1294757372, 1396182291,
   1695183700, 1986661051, 2177026350, 2456956037, 2730485921, 2820302411,
   3259730800, 3345764771, 3516065817, 3600352804, 4094571909, 275423344,
   430227734, 506948616, 659060556, 883997877, 958139571, 1322822218,
   1537002063, 1747873779, 1955562222, 2024104815, 2227730452, 2361852424,
   2428436474, 2756734187, 3204031479, 3329325298]

/-- Eight-word SHA-256 state. -/
structure H8 where
  a : Nat
  b : Nat
  c : Nat
  d : Nat
  e : Nat
  f : Nat
  g : Nat
  hh : Nat

/-- Next word of the SHA-256 message schedule. -/
def sha256ExtendStep (ws : List Nat) : Nat :=
  let l := ws.length
  let w15 := ws.getD (l - 15) 0
  let w2 := ws.getD (l - 2) 0
  let s0 := rotr 7 w15 ^^^ rotr 18 w15 ^^^ (w15 >>> 3)
  let s1 := rotr 17 w2 ^^^ rotr 19 w2 ^^^ (w2 >>> 10)
  w32 (ws.getD (l - 16) 0 + s0 + ws.getD (l - 7) 0 + s1)

/-- Extend the SHA-256 message schedule by `n` words. -/
def sha256Extend (ws : List Nat) : Nat → List Nat
  | 0 => ws
  | n + 1 => sha256Extend (ws ++ [sha256ExtendStep ws]) n

/-- One SHA-256 compression round. -/
def sha256Round (st : H8) (kw : Nat × Nat) : H8 :=
  let s1 := rotr 6 st.e ^^^ rotr 11 st.e ^^^ rotr 25 st.e
  let ch := (st.e &&& st.f) ^^^ ((st.e ^^^ 4294967295) &&& st.g)
  let t1 := w32 (st.hh + s1 + ch + kw.1 + kw.2)
  let s0 := rotr 2 st.a ^^^ rotr 13 st.a ^^^ rotr 22 st.a
  let mj := (st.a &&& st.b) ^^^ (st.a &&& st.c) ^^^ (st.b &&& st.c)
  let t2 := w32 (s0 + mj)
  ⟨w32 (t1 + t2), st.a, st.b, st.c, w32 (st.d + t1), st.e, st.f, st.g⟩

/-- Compress one 64-byte block into the running SHA-256 state. -/
def sha256Block (h : H8) (block : List Nat) : H8 :=
  let ws := sha256Extend (beWords block) 48
  let st := (sha256K.zip ws).foldl sha256Round h
  ⟨w32 (h.a + st.a), w32 (h.b + st.b), w32 (h.c + st.c), w32 (h.d + st.d),
   w32 (h.e + st.e), w32 (h.f + st.f), w32 (h.g + st.g), w32 (h.hh + st.hh)⟩

/-- Initial SHA-256 state. -/
def sha256Init : H8 :=
  ⟨1779033703, 3144134277, 1013904242, 2773480762,
   1359893119, 2600822924, 528734635, 1541459225⟩

/-- The eight-word SHA-256 state after hashing a whole message. -/
def sha256Digest (msg : List Nat) : H8 :=
  (chunks64 (shaPad msg)).foldl sha256Block sha256Init

/-- SHA-256 digest of a byte string as its 32 big-endian bytes. -/
def sha256 (msg : List Nat) : List Nat :=
  wordBe (sha256Digest msg).a ++ wordBe (sha256Digest msg).b ++
  wordBe (sha256Digest msg).c ++ wordBe (sha256Digest msg).d ++
  wordBe (sha256Digest msg).e ++ wordBe (sha256Digest msg).f ++
  wordBe (sha256Digest msg).g ++ wordBe (sha256Digest msg).hh

/-- HMAC-SHA256 (RFC 2104, block size 64): the MAC used to sign and verify
the minted access token. -/
def hmacSha256 (key msg : List Nat) : List Nat :=
  let k0 := if 64 < key.length then sha256 key else key
  let kp := k0 ++ List.replicate (64 - k0.length) 0
  sha256 ((kp.map (fun b => b ^^^ 92)) ++ sha256 ((kp.map (fun b => b ^^^ 54)) ++ msg))

/-! ### Base64 and base64url (Buffer `toString('base64')` plus the regex
replacements of the sources, and `base64urlDecode` from `tests/_utils`) -/

/-- The standard base64 alphabet as byte values. -/
def b64Table : List Nat :=
  [65, 66, 67, 68, 69, 70, 71, 72, 73, 74, 75, 76, 77, 78, 79, 80, 81, 82,
   83, 84, 85, 86, 87, 88, 89, 90, 97, 98, 99, 100, 101, 102, 103, 104, 105,
   106, 107, 108, 109, 110, 111, 112, 113, 114, 115, 116, 117, 118, 119,
   120, 121, 122, 48, 49, 50, 51, 52, 53, 54, 55, 56, 57, 43, 47]

/-- Alphabet character of a sextet value. -/
def b64Char (v : Nat) : Nat := b64Table.getD v 65

/-- Sextet value of an alphabet character. -/
def b64Val (c : Nat) : Nat := b64Table.indexOf c

/-- Standard base64 encoding with `=` padding, three bytes to four
characters. -/
def b64Chunks : List Nat → List Nat
  | [] => []
  | [b0] => [b64Char (b0 / 4), b64Char (b0 % 4 * 16), 61, 61]
  | [b0, b1] => [b64Char (b0 / 4), b64Char (b0 % 4 * 16 + b1 / 16),
                 b64Char (b1 % 16 * 4), 61]
  | b0 :: b1 :: b2 :: rest =>
      b64Char (b0 / 4) :: b64Char (b0 % 4 * 16 + b1 / 16) ::
      b64Char (b1 % 16 * 4 + b2 / 64) :: b64Char (b2 % 64) :: b64Chunks rest

/-- The `replace(/=/g, '')` step. -/
def stripEq (cs : List Nat) : List Nat := cs.filter (fun c => c ≠ 61)

/-- The `replace(/\+/g, '-')` step. -/
def plusToMinus (c : Nat) : Nat := if c = 43 then 45 else c

/-- The `replace(/\//g, '_')` step. -/
def slashToUnderscore (c : Nat) : Nat := if c = 47 then 95 else c

/-- Unpadded base64url encoding, written as the sources compute it: standard
base64, strip `=`, replace `+` and `/`. -/
def base64urlEncode (bs : List Nat) : List Nat :=
  ((stripEq (b64Chunks bs)).map plusToMinus).map slashToUnderscore

/-- The inverse character replacements of `base64urlDecode`. -/
def minusToPlus (c : Nat) : Nat := if c = 45 then 43 else c

/-- The inverse character replacements of `base64urlDecode`. -/
def underscoreToSlash (c : Nat) : Nat := if c = 95 then 47 else c

/-- Standard base64 decoding of four-character groups with trailing `=`. -/
def b64Decode : List Nat → List Nat
  | c0 :: c1 :: c2 :: c3 :: rest =>
      let v0 := b64Val c0
      let v1 := b64Val c1
      if c3 = 61 then
        if c2 = 61 then [v0 * 4 + v1 / 16]
        else [v0 * 4 + v1 / 16, v1 % 16 * 16 + b64Val c2 / 4]
      else (v0 * 4 + v1 / 16) :: (v1 % 16 * 16 + b64Val c2 / 4) ::
           (b64Val c2 % 4 * 64 + b64Val c3) :: b64Decode rest
  | _ => []

/-- Embedding of `base64urlDecode` from `tests/_utils`: re-add `=` padding,
undo the `-` and `_` replacements, and decode standard base64. -/
def base64urlDecode (input : List Nat) : List Nat :=
  let pad := if input.length % 4 = 0 then []
             else List.replicate (4 - input.length % 4) 61
  b64Decode (((input ++ pad).map minusToPlus).map underscoreToSlash)

/-! ### JSON values, serialization and parsing

JSON objects appear at two levels: claim objects manipulated by the handler
(string-valued, `JObjS`) and the byte-level form that serialization and
parsing work on (`JObjB`). `JSON.stringify` and `JSON.parse` are modelled at
the byte level for the flat string/number objects the JWTs carry; escaping
operates on bytes, which agrees with character-level escaping because every
escaped character is ASCII and multi-byte UTF-8 sequences pass through
JSON.stringify unescaped. -/

inductive JValS
  | str (s : String)
  | num (n : Nat)
deriving DecidableEq, Repr

abbrev JObjS := List (String × JValS)

inductive JValB
  | str (bs : List Nat)
  | num (n : Nat)
deriving DecidableEq, Repr

abbrev JObjB := List (List Nat × JValB)

/-- Lowercase hex digit byte of a nibble. -/
def hexDigitByte (n : Nat) : Nat := if n < 10 then 48 + n else 87 + n

/-- JSON string escaping of one byte, as `JSON.stringify` emits it: quote and
backslash escaped, the short control escapes, `\u00XX` for other control
bytes, everything else verbatim. -/
def escapeByte (b : Nat) : List Nat :=
  if b = 34 then [92, 34]
  else if b = 92 then [92, 92]
  else if b = 8 then [92, 98]
  else if b = 9 then [92, 116]
  else if b = 10 then [92, 110]
  else if b = 12 then [92, 102]
  else if b = 13 then [92, 114]
  else if b < 32 then [92, 117, 48, 48, hexDigitByte (b / 16), hexDigitByte (b % 16)]
  else [b]

/-- Escape a byte string. -/
def escBytes (bs : List Nat) : List Nat := bs.flatMap escapeByte

/-- A serialized JSON string literal: quote, escaped bytes, quote. -/
def serStr (bs : List Nat) : List Nat := 34 :: escBytes bs ++ [34]

/-- Decimal digits of a natural number, most significant first. -/
def natBytes (n : Nat) : List Nat :=
  if h : n < 10 then [48 + n] else natBytes (n / 10) ++ [48 + n % 10]
decreasing_by omega

/-- Serialize one JSON value. -/
def serVal : JValB → List Nat
  | .str bs => serStr bs
  | .num n => natBytes n

/-- Serialize the members of a JSON object, closing with `}`. -/
def serMembers : JObjB → List Nat
  | [] => [125]
  | [(k, v)] => serStr k ++ 58 :: serVal v ++ [125]
  | (k, v) :: rest => serStr k ++ 58 :: serVal v ++ 44 :: serMembers rest

/-- Serialize a JSON object (insertion order, no whitespace), as
`JSON.stringify` renders the flat objects of this code base. -/
def serializeObj (o : JObjB) : List Nat := 123 :: serMembers o

/-- Byte-level image of a string-level JSON value. -/
def valBytes : JValS → JValB
  | .str s => .str (utf8Str s)
  | .num n => .num n

/-- Byte-level image of a string-level JSON object. -/
def objBytes (o : JObjS) : JObjB := o.map (fun kv => (utf8Str kv.1, valBytes kv.2))

/-- `JSON.stringify` of a string-level object. -/
def serializeObjS (o : JObjS) : List Nat := serializeObj (objBytes o)

/-- Decimal digit test on a byte. -/
def isDigitByte (b : Nat) : Bool := decide (48 ≤ b) && decide (b ≤ 57)

/-- Hex digit value of a byte. -/
def hexNibble (b : Nat) : Option Nat :=
  if 48 ≤ b ∧ b ≤ 57 then some (b - 48)
  else if 97 ≤ b ∧ b ≤ 102 then some (b - 87)
  else if 65 ≤ b ∧ b ≤ 70 then some (b - 55)
  else none

/-- Parse the remainder of a JSON string literal (after the opening quote),
unescaping; returns the content and the rest of the input. The fuel only
bounds the recursion depth (one unit per produced character); callers pass
the input length, which always suffices. -/
def parseStrLoop : Nat → List Nat → List Nat → Option (List Nat × List Nat)
  | 0, _, _ => none
  | _ + 1, [], _ => none
  | fuel + 1, c :: rest, acc =>
    if c = 34 then some (acc.reverse, rest)
    else if c = 92 then
      match rest with
      | [] => none
      | e :: rest2 =>
        if e = 34 then parseStrLoop fuel rest2 (34 :: acc)
        else if e = 92 then parseStrLoop fuel rest2 (92 :: acc)
        else if e = 47 then parseStrLoop fuel rest2 (47 :: acc)
        else if e = 98 then parseStrLoop fuel rest2 (8 :: acc)
        else if e = 116 then parseStrLoop fuel rest2 (9 :: acc)
        else if e = 110 then parseStrLoop fuel rest2 (10 :: acc)
        else if e = 102 then parseStrLoop fuel rest2 (12 :: acc)
        else if e = 114 then parseStrLoop fuel rest2 (13 :: acc)
        else if e = 117 then
          match rest2 with
          | u1 :: u2 :: u3 :: u4 :: rest3 =>
            match hexNibble u1, hexNibble u2, hexNibble u3, hexNibble u4 with
            | some h1, some h2, some h3, some h4 =>
                parseStrLoop fuel rest3 ((h1 * 4096 + h2 * 256 + h3 * 16 + h4) :: acc)
            | _, _, _, _ => none
          | _ => none
        else none
    else parseStrLoop fuel rest (c :: acc)

/-- Parse a run of decimal digits into a number. -/
def parseNumLoop : List Nat → Nat → Nat × List Nat
  | [], acc => (acc, [])
  | b :: rest, acc =>
    if 48 ≤ b ∧ b ≤ 57 then parseNumLoop rest (acc * 10 + (b - 48))
    else (acc, b :: rest)

/-- Parse one JSON value (string or natural number, the only shapes the
embedded objects carry). -/
def parseVal : List Nat → Option (JValB × List Nat)
  | [] => none
  | b :: rest =>
    if b = 34 then (parseStrLoop rest.length rest []).map (fun p => (JValB.str p.1, p.2))
    else if 48 ≤ b ∧ b ≤ 57 then
      some (JValB.num (parseNumLoop (b :: rest) 0).1, (parseNumLoop (b :: rest) 0).2)
    else none

/-- Parse the members of a JSON object after the opening brace, consuming the
closing brace; fuel bounds the number of members. -/
def parseMembers : Nat → List Nat → Option (JObjB × List Nat)
  | 0, _ => none
  | fuel + 1, xs =>
    match xs with
    | 34 :: rest =>
      match parseStrLoop rest.length rest [] with
      | none => none
      | some (k, rest1) =>
        match rest1 with
        | 58 :: rest2 =>
          match parseVal rest2 with
          | none => none
          | some (v, rest3) =>
            match rest3 with
            | 44 :: rest4 =>
              match parseMembers fuel rest4 with
              | none => none
              | some (o, rest5) => some ((k, v) :: o, rest5)
            | 125 :: rest4 => some ([(k, v)], rest4)
            | _ => none
        | _ => none
    | _ => none

/-- `JSON.parse` for the flat objects of this code base: requires a braced
object covering the whole input. -/
def jsonParse (bs : List Nat) : Option JObjB :=
  match bs with
  | 123 :: 125 :: rest => if rest.isEmpty then some [] else none
  | 123 :: rest =>
    match parseMembers rest.length rest with
    | some (o, rest1) => if rest1.isEmpty then some o else none
    | none => none
  | _ => none

/-! ### JWT compact serialization, signing and the test verifier -/

/-- The protected header `SignJWT` emits for alg HS256. -/
def jwtHeaderObj : JObjS := [("alg", JValS.str "HS256"), ("typ", JValS.str "JWT")]

/-- Modelled from the `jose` library contract: `SignJWT.sign` with an HS256
key produces `base64url(header) . base64url(payload) . base64url(mac)` where
the MAC is HMAC-SHA256 of the signing input under the secret. -/
def signJwtHs256 (payload : JObjS) (secret : List Nat) : List Nat :=
  let si := base64urlEncode (serializeObjS jwtHeaderObj) ++ 46 ::
            base64urlEncode (serializeObjS payload)
  si ++ 46 :: base64urlEncode (hmacSha256 secret si)

/-- Split a byte string on `.` (the character class the compact JWT
serialization separates on). -/
def splitDot : List Nat → List (List Nat)
  | [] => [[]]
  | c :: rest =>
    if c = 46 then [] :: splitDot rest
    else
      match splitDot rest with
      | [] => [[c]]
      | g :: gs => (c :: g) :: gs

/-- Embedding of `decodeJwtNoVerify` from `tests/_utils`: split on `.`,
require exactly three parts, base64url-decode and JSON-parse header and
payload, and return them with the signing input and the signature part.
`none` models the thrown `jwt_malformed` / parse exception. -/
def decodeJwtNoVerify (token : List Nat) :
    Option (JObjB × JObjB × List Nat × List Nat) :=
  match splitDot token with
  | [h, p, s] =>
    match jsonParse (base64urlDecode h), jsonParse (base64urlDecode p) with
    | some hdr, some pld => some (hdr, pld, h ++ 46 :: p, s)
    | _, _ => none
  | _ => none

/-- Embedding of `verifyHs256` from `tests/_utils`: decode, require alg
HS256, recompute the MAC over the signing input and compare its base64url
encoding with the signature part. `none` models the decode throwing. -/
def verifyHs256 (token : List Nat) (secret : String) : Option Bool :=
  match decodeJwtNoVerify token with
  | none => none
  | some (hdr, _, signingInput, sigB) =>
    if hdr.lookup (utf8Str "alg") = some (JValB.str (utf8Str "HS256")) then
      some (decide (base64urlEncode (hmacSha256 (utf8Str secret) signingInput) = sigB))
    else some false

/-! ### The federation edge function (direct JWT minting variant) -/

/-- The JavaScript whitespace set that `String.prototype.trim` strips. -/
def jsWhitespaceChar (c : Char) : Bool :=
  c == ' ' || c == '\t' || c == '\n' || c == '\r' ||
  c.toNat == 11 || c.toNat == 12 || c.toNat == 160 || c.toNat == 5760 ||
  (decide (8192 ≤ c.toNat) && decide (c.toNat ≤ 8202)) ||
  c.toNat == 8232 || c.toNat == 8233 || c.toNat == 8239 ||
  c.toNat == 8287 || c.toNat == 12288 || c.toNat == 65279

/-- JavaScript `trim()`. -/
def jsTrim (s : String) : String :=
  String.mk ((s.data.dropWhile jsWhitespaceChar).reverse.dropWhile jsWhitespaceChar).reverse

/-- Embedding of `isNonEmptyString` applied to a claim value: a string whose
trimmed form is non-empty. -/
def isNonEmptyString : Option JValS → Bool
  | some (.str s) => !(jsTrim s).data.isEmpty
  | _ => false

/-- One candidate of `pickEmail`: accepted when it is a non-empty string
containing an `@`. -/
def emailCandidateOk : Option JValS → Option String
  | some (.str s) =>
      if !(jsTrim s).data.isEmpty && s.data.contains '@' then some s else none
  | _ => none

/-- Embedding of `pickEmail`: the first of the `email`, `email_address`,
`primary_email_address`, `preferred_username` claims that is a non-empty
string containing `@`, else `none`. -/
def pickEmail (payload : JObjS) : Option String :=
  [payload.lookup "email", payload.lookup "email_address",
   payload.lookup "primary_email_address",
   payload.lookup "preferred_username"].findSome? emailCandidateOk

/-- Outcome of the admin-API calls `ensureAuthUser` performs, supplied as an
oracle: the user exists (with some stored email), creation succeeds, creation
conflicts but the re-check finds the user, creation fails and the re-check
also fails, or an admin call rejects with a transport error. -/
inductive DbOracle
  | found (storedEmail : String)
  | createdOk
  | raceFound
  | createFailed
  | threw
deriving DecidableEq

/-- Trace of the admin-API calls a request issues. -/
inductive AdminCall
  | getUserById (id : String)
  | createUser (id email clerkUserId : String) (clerkIss : Option JValS)
deriving DecidableEq

/-- Errors `ensureAuthUser` can throw. -/
inductive EnsureErr
  | userCreateFailed
  | genericError
deriving DecidableEq

/-- Embedding of `ensureAuthUser`: derive the email from the claims (claim
email, else the synthesized placeholder); look the user up by the mapped id
and, when found, return the derived email without further calls; otherwise
create the user (with `clerk_iss` and `clerk_user_id` metadata); on a
creation error re-check and treat a found user as success, else throw
`USER_CREATE_FAILED`. The second component records the admin calls made. -/
def ensureAuthUser (oracle : DbOracle) (supabaseUserId clerkUserId : String)
    (payload : JObjS) : Except EnsureErr String × List AdminCall :=
  let email := (pickEmail payload).getD ("clerk+" ++ clerkUserId ++ "@example.invalid")
  let createCall := AdminCall.createUser supabaseUserId email clerkUserId
    (payload.lookup "iss")
  match oracle with
  | .found _ => (.ok email, [.getUserById supabaseUserId])
  | .createdOk => (.ok email, [.getUserById supabaseUserId, createCall])
  | .raceFound =>
      (.ok email, [.getUserById supabaseUserId, createCall, .getUserById supabaseUserId])
  | .createFailed =>
      (.error .userCreateFailed,
       [.getUserById supabaseUserId, createCall, .getUserById supabaseUserId])
  | .threw => (.error .genericError, [.getUserById supabaseUserId])

/-- Error codes of the federation endpoint. -/
inductive ErrCode
  | invalid_body
  | rate_limited
  | env_missing
  | jwt_invalid
  | jwt_issuer_invalid
  | jwt_audience_invalid
  | user_create_failed
  | session_create_failed
  | internal_error
deriving DecidableEq

/-- Response body of the federation endpoint: a session with access token and
(always null) refresh token, or an error code with its message. -/
inductive RespBody
  | okSession (accessToken : List Nat) (refreshToken : Option (List Nat))
  | err (code : ErrCode) (msg : String)
deriving DecidableEq

/-- HTTP method of the request. -/
inductive HttpMethod
  | options
  | post
  | other
deriving DecidableEq

/-- Request-independent configuration of the federation endpoint. -/
structure FedEnv where
  jwtSecret : String
  expectedIssuer : String
  expectedAudience : String

/-- One federation request: method, rate-limit and body-shape outcomes, the
outcome of the cryptographic checks `jwtVerify` performs against the remote
key set (signature validity and structural validity, which covers expiry and
malformedness), the inbound token's claims, the admin-API oracle, and the
current Unix time. -/
structure FedInput where
  method : HttpMethod
  rlOk : Bool
  bodyTokenOk : Bool
  structOk : Bool
  sigOk : Bool
  payload : JObjS
  oracle : DbOracle
  now : Nat

/-- Observable outcome of one federation request: HTTP status, body, whether
user provisioning was attempted, and whether a token was minted. -/
structure FedOut where
  status : Nat
  body : RespBody
  ensureAttempted : Bool
  minted : Bool
deriving DecidableEq

/-- The namespace constant of the federation handler. -/
def NAMESPACE_UUID : String := "6ba7b811-9dad-11d1-80b4-00c04fd430c8"

/-- Modelled from the `jose` library contract: `jwtVerify` with `issuer` and
`audience` options resolves successfully iff the token is structurally valid,
its signature verifies against the key set, and the `iss` and `aud` claims
equal the expected values (string audience). Any failure throws, which the
handler maps to `jwt_invalid`. -/
def joseVerifyOk (env : FedEnv) (inp : FedInput) : Bool :=
  inp.structOk && inp.sigOk &&
  decide (inp.payload.lookup "iss" = some (JValS.str env.expectedIssuer)) &&
  decide (inp.payload.lookup "aud" = some (JValS.str env.expectedAudience))

/-- The token-minting step of the handler: payload
`{aud, email, role, sub, iat, exp}` in insertion order, `exp = iat + 3600`,
signed HS256 with the configured secret. -/
def mintAccessToken (email supabaseUserId : String) (now : Nat) (secret : String) : List Nat :=
  signJwtHs256 [("aud", JValS.str "authenticated"), ("email", JValS.str email),
    ("role", JValS.str "authenticated"), ("sub", JValS.str supabaseUserId),
    ("iat", JValS.num now), ("exp", JValS.num (now + 60 * 60))] (utf8Str secret)

/-- Embedding of the federation request handler (`Deno.serve` body of the
direct-minting `clerk-jwt-verify` variant): CORS preflight, method check,
rate limit, body validation, `jwtVerify` (any failure is answered with the
uniform `jwt_invalid` response), the redundant issuer re-check, the non-empty
`sub` check, lazy user provisioning, and HS256 minting of the access token
with `refresh_token` fixed to null. -/
def handleFederate (env : FedEnv) (inp : FedInput) : FedOut :=
  if inp.method = HttpMethod.options then ⟨200, .okSession [] none, false, false⟩
  else if inp.method ≠ HttpMethod.post then
    ⟨405, .err .invalid_body "Method not allowed", false, false⟩
  else if !inp.rlOk then ⟨429, .err .rate_limited "rate_limited", false, false⟩
  else if !inp.bodyTokenOk then
    ⟨400, .err .invalid_body "Invalid body. Expected \x7b clerkToken: string \x7d", false, false⟩
  else if !joseVerifyOk env inp then
    ⟨401, .err .jwt_invalid "jwt_invalid", false, false⟩
  else if inp.payload.lookup "iss" ≠ some (JValS.str env.expectedIssuer) then
    ⟨401, .err .jwt_issuer_invalid "Invalid issuer", false, false⟩
  else
    match inp.payload.lookup "sub" with
    | some (JValS.str s) =>
      if (jsTrim s).data.isEmpty then
        ⟨401, .err .jwt_invalid "Missing user_id", false, false⟩
      else
        match ensureAuthUser inp.oracle (uuidV5FromString s NAMESPACE_UUID) s inp.payload with
        | (.error .userCreateFailed, _) =>
            ⟨500, .err .user_create_failed "Failed to create user", true, false⟩
        | (.error .genericError, _) =>
            ⟨500, .err .internal_error "Internal error", true, false⟩
        | (.ok email, _) =>
            ⟨200, .okSession
              (mintAccessToken email (uuidV5FromString s NAMESPACE_UUID) inp.now env.jwtSecret)
              none, true, true⟩
    | _ => ⟨401, .err .jwt_invalid "Missing user_id", false, false⟩

/-! ### Base64url round trip -/

/-- Case analysis principle following the three-byte chunking of base64. -/
theorem chunkRec {P : List Nat → Prop} (h0 : P []) (h1 : ∀ a, P [a])
    (h2 : ∀ a b, P [a, b])
    (h3 : ∀ a b c rest, P rest → P (a :: b :: c :: rest)) :
    ∀ bs, P bs
  | [] => h0
  | [a] => h1 a
  | [a, b] => h2 a b
  | a :: b :: c :: rest => h3 a b c rest (chunkRec h0 h1 h2 h3 rest)

/-- Every alphabet character is in the table (the out-of-range default is
`A`). -/
theorem b64Char_mem (v : Nat) : b64Char v ∈ b64Table := by
  by_cases h : v < 64
  · have h' : v < b64Table.length := by simp [b64Table]; omega
    rw [b64Char, List.getD_eq_getElem _ _ h']
    exact List.getElem_mem h'
  · have h' : b64Table.length ≤ v := by simp [b64Table]; omega
    simp [b64Char, List.getD_eq_getElem?_getD, List.getElem?_eq_none h']
    decide

/-- No alphabet character is the padding character. -/
theorem b64Char_ne_61 (v : Nat) : b64Char v ≠ 61 := by
  have h := b64Char_mem v
  have : ∀ c ∈ b64Table, c ≠ 61 := by decide
  exact this _ h

/-- The sextet value of an alphabet character recovers the sextet. -/
theorem b64Val_b64Char (v : Nat) (h : v < 64) : b64Val (b64Char v) = v := by
  revert h
  revert v
  decide

/-- The url-safe replacements undo on alphabet characters. -/
theorem untransform_transform (c : Nat) (h : c ∈ b64Table) :
    minusToPlus (underscoreToSlash (slashToUnderscore (plusToMinus c))) = c ∧
    underscoreToSlash (minusToPlus (slashToUnderscore (plusToMinus c))) = c := by
  revert h
  have : ∀ c ∈ b64Table,
      minusToPlus (underscoreToSlash (slashToUnderscore (plusToMinus c))) = c ∧
      underscoreToSlash (minusToPlus (slashToUnderscore (plusToMinus c))) = c := by decide
  exact this c

/-- Applying the decode-side replacements after the encode-side replacements
is the identity on alphabet characters (the two replacement passes commute on
them since `-` and `_` are not alphabet characters). -/
theorem unreplace_replace (c : Nat) (h : c ∈ b64Table) :
    underscoreToSlash (minusToPlus (slashToUnderscore (plusToMinus c))) = c :=
  (untransform_transform c h).2

/-- Characters of the base64 chunk encoding are alphabet characters or the
padding character. -/
theorem b64Chunks_chars (bs : List Nat) : ∀ c ∈ b64Chunks bs, c ∈ b64Table ∨ c = 61 := by
  induction bs using chunkRec with
  | h0 => simp [b64Chunks]
  | h1 a => simp [b64Chunks]; exact ⟨Or.inl (b64Char_mem _), Or.inl (b64Char_mem _)⟩
  | h2 a b =>
      simp [b64Chunks]
      exact ⟨Or.inl (b64Char_mem _), Or.inl (b64Char_mem _), Or.inl (b64Char_mem _)⟩
  | h3 a b c rest ih =>
      intro x hx
      simp only [b64Chunks, List.mem_cons] at hx
      rcases hx with rfl | rfl | rfl | rfl | hx
      · exact Or.inl (b64Char_mem _)
      · exact Or.inl (b64Char_mem _)
      · exact Or.inl (b64Char_mem _)
      · exact Or.inl (b64Char_mem _)
      · exact ih x hx

/-- Characters surviving the `=` strip are alphabet characters. -/
theorem stripEq_chars (bs : List Nat) : ∀ c ∈ stripEq (b64Chunks bs), c ∈ b64Table := by
  intro c hc
  simp only [stripEq, List.mem_filter, decide_eq_true_eq] at hc
  rcases b64Chunks_chars bs c hc.1 with h | h
  · exact h
  · exact absurd h hc.2

/-- Core of the round trip: decoding the stripped chunk characters with the
re-added padding recovers the bytes. -/
theorem b64core (bs : List Nat) (hb : ∀ b ∈ bs, b < 256) :
    b64Decode (stripEq (b64Chunks bs) ++
      (if (stripEq (b64Chunks bs)).length % 4 = 0 then []
       else List.replicate (4 - (stripEq (b64Chunks bs)).length % 4) 61)) = bs := by
  induction bs using chunkRec with
  | h0 => rfl
  | h1 a =>
      have ha : a < 256 := hb a (by simp)
      have h0 : b64Char (a / 4) ≠ 61 := b64Char_ne_61 _
      have h1' : b64Char (a % 4 * 16) ≠ 61 := b64Char_ne_61 _
      have hstrip : stripEq (b64Chunks [a]) =
          [b64Char (a / 4), b64Char (a % 4 * 16)] := by
        simp [b64Chunks, stripEq, List.filter, h0, h1']
      rw [hstrip]
      norm_num [List.replicate]
      simp only [b64Decode]
      norm_num
      rw [b64Val_b64Char _ (by omega), b64Val_b64Char _ (by omega)]
      omega
  | h2 a b =>
      have ha : a < 256 := hb a (by simp)
      have hbb : b < 256 := hb b (by simp)
      have h0 : b64Char (a / 4) ≠ 61 := b64Char_ne_61 _
      have h1' : b64Char (a % 4 * 16 + b / 16) ≠ 61 := b64Char_ne_61 _
      have h2' : b64Char (b % 16 * 4) ≠ 61 := b64Char_ne_61 _
      have hstrip : stripEq (b64Chunks [a, b]) =
          [b64Char (a / 4), b64Char (a % 4 * 16 + b / 16), b64Char (b % 16 * 4)] := by
        simp [b64Chunks, stripEq, List.filter, h0, h1', h2']
      rw [hstrip]
      norm_num [List.replicate]
      simp only [b64Decode]
      norm_num [h2']
      rw [b64Val_b64Char _ (by omega), b64Val_b64Char _ (by omega),
        b64Val_b64Char _ (by omega)]
      constructor
      · omega
      · omega
  | h3 a b c rest ih =>
      have ha : a < 256 := hb a (by simp)
      have hbb : b < 256 := hb b (by simp)
      have hc : c < 256 := hb c (by simp)
      have hrest : ∀ x ∈ rest, x < 256 := fun x hx => hb x (by simp [hx])
      have h0 : b64Char (a / 4) ≠ 61 := b64Char_ne_61 _
      have h1' : b64Char (a % 4 * 16 + b / 16) ≠ 61 := b64Char_ne_61 _
      have h2' : b64Char (b % 16 * 4 + c / 64) ≠ 61 := b64Char_ne_61 _
      have h3' : b64Char (c % 64) ≠ 61 := b64Char_ne_61 _
      have hchunk : b64Chunks (a :: b :: c :: rest) =
          b64Char (a / 4) :: b64Char (a % 4 * 16 + b / 16) ::
          b64Char (b % 16 * 4 + c / 64) :: b64Char (c % 64) :: b64Chunks rest := rfl
      rw [hchunk]
      have hstrip : stripEq (b64Char (a / 4) :: b64Char (a % 4 * 16 + b / 16) ::
          b64Char (b % 16 * 4 + c / 64) :: b64Char (c % 64) :: b64Chunks rest) =
          b64Char (a / 4) :: b64Char (a % 4 * 16 + b / 16) ::
          b64Char (b % 16 * 4 + c / 64) :: b64Char (c % 64) ::
          stripEq (b64Chunks rest) := by
        simp [stripEq, List.filter, h0, h1', h2', h3']
      rw [hstrip]
      have hlen : ∀ n : Nat, (4 + n) % 4 = n % 4 := fun n => Nat.add_mod_left 4 n
      simp only [List.length_cons]
      have hlen4 : (stripEq (b64Chunks rest)).length + 1 + 1 + 1 + 1 =
          4 + (stripEq (b64Chunks rest)).length := by omega
      rw [hlen4, hlen]
      simp only [List.cons_append]
      rw [b64Decode]
      rw [if_neg h3']
      rw [b64Val_b64Char _ (by omega), b64Val_b64Char _ (by omega),
        b64Val_b64Char _ (by omega), b64Val_b64Char _ (by omega)]
      rw [ih hrest]
      congr 1
      · omega
      congr 1
      · omega
      congr 1
      omega

/-- Decoding inverts encoding on byte strings. -/
theorem base64url_roundtrip (bs : List Nat) (hb : ∀ b ∈ bs, b < 256) :
    base64urlDecode (base64urlEncode bs) = bs := by
  have hmem := stripEq_chars bs
  have hcore := b64core bs hb
  unfold base64urlDecode base64urlEncode
  simp only [List.map_append, List.map_map, List.length_map]
  have hE : (stripEq (b64Chunks bs)).map
      (underscoreToSlash ∘ minusToPlus ∘ slashToUnderscore ∘ plusToMinus) =
      stripEq (b64Chunks bs) := by
    have h1 : (stripEq (b64Chunks bs)).map
        (underscoreToSlash ∘ minusToPlus ∘ slashToUnderscore ∘ plusToMinus) =
        (stripEq (b64Chunks bs)).map id :=
      List.map_congr_left (fun c hc => unreplace_replace c (hmem c hc))
    rw [h1, List.map_id]
  by_cases hp : (stripEq (b64Chunks bs)).length % 4 = 0
  · rw [if_pos hp] at hcore ⊢
    rw [List.append_nil] at hcore
    simp only [List.map_nil, List.append_nil]
    rw [hE]
    exact hcore
  · rw [if_neg hp] at hcore ⊢
    rw [hE]
    have hpad : (List.replicate (4 - (stripEq (b64Chunks bs)).length % 4) 61).map
        (underscoreToSlash ∘ minusToPlus) =
        List.replicate (4 - (stripEq (b64Chunks bs)).length % 4) 61 := by
      rw [List.map_replicate]
      rfl
    rw [hpad]
    exact hcore

/-- A SHA-256 digest consists of exactly 32 bytes. -/
theorem sha256_length (msg : List Nat) : (sha256 msg).length = 32 := by
  simp [sha256, wordBe]

/-- Every byte of a SHA-256 digest is below 256. -/
theorem sha256_bytes_lt (msg : List Nat) : ∀ b ∈ sha256 msg, b < 256 := by
  intro b hb
  simp only [sha256, wordBe, List.mem_append, List.mem_cons, List.not_mem_nil,
    or_false] at hb
  rcases hb with ((h | h | h | h) | (h | h | h | h) | (h | h | h | h) |
    (h | h | h | h) | (h | h | h | h) | (h | h | h | h) | (h | h | h | h) |
    (h | h | h | h)) <;> omega

/-- HMAC output bytes are SHA-256 output bytes. -/
theorem hmacSha256_bytes_lt (key msg : List Nat) : ∀ b ∈ hmacSha256 key msg, b < 256 := by
  intro b hb
  exact sha256_bytes_lt _ b hb

/-- UTF-8 bytes of a character are below 256 (the four-byte case uses that a
`Char` is a Unicode scalar value below `0x110000`). -/
theorem utf8Char_lt (c : Char) : ∀ b ∈ utf8Char c, b < 256 := by
  have hv : c.toNat < 1114112 := by
    rcases c.valid with h | ⟨h1, h2⟩ <;> simp [Char.toNat] <;> omega
  intro b hb
  simp only [utf8Char] at hb
  split at hb
  next h1 => simp at hb; omega
  next h1 =>
    split at hb
    next h2 => simp at hb; rcases hb with rfl | rfl <;> omega
    next h2 =>
      split at hb
      next h3 => simp at hb; rcases hb with rfl | rfl | rfl <;> omega
      next h3 => simp at hb; rcases hb with rfl | rfl | rfl | rfl <;> omega

/-- UTF-8 bytes of a string are below 256. -/
theorem utf8Str_lt (s : String) : ∀ b ∈ utf8Str s, b < 256 := by
  intro b hb
  simp only [utf8Str, List.mem_flatMap] at hb
  obtain ⟨c, _, hc⟩ := hb
  exact utf8Char_lt c b hc

/-- Escaping a byte below 256 yields bytes below 256. -/
theorem escapeByte_lt (b : Nat) (hb : b < 256) : ∀ x ∈ escapeByte b, x < 256 := by
  have h : ∀ b' < 256, ∀ x ∈ escapeByte b', x < 256 := by decide
  exact h b hb

/-- Escaped byte strings stay below 256. -/
theorem escBytes_lt (bs : List Nat) (hb : ∀ b ∈ bs, b < 256) :
    ∀ x ∈ escBytes bs, x < 256 := by
  intro x hx
  simp only [escBytes, List.mem_flatMap] at hx
  obtain ⟨b, hbm, hxb⟩ := hx
  exact escapeByte_lt b (hb b hbm) x hxb

/-- Decimal digit bytes lie between 48 and 57. -/
theorem natBytes_digits (n : Nat) : ∀ b ∈ natBytes n, 48 ≤ b ∧ b ≤ 57 := by
  induction n using Nat.strong_induction_on with
  | _ n ih =>
    intro b hb
    rw [natBytes] at hb
    split at hb
    · simp at hb; omega
    · next h =>
        simp only [List.mem_append, List.mem_singleton] at hb
        rcases hb with hb | rfl
        · exact ih (n / 10) (by omega) b hb
        · omega

/-- Serialized JSON string literals consist of bytes below 256 when the
content does. -/
theorem serStr_lt (k : List Nat) (hk : ∀ b ∈ k, b < 256) :
    ∀ x ∈ serStr k, x < 256 := by
  intro x hx
  rcases List.mem_cons.1 hx with rfl | hx
  · omega
  · rcases List.mem_append.1 hx with hx | hx
    · exact escBytes_lt k hk x hx
    · simp at hx; omega

/-- Serialized JSON values consist of bytes below 256 when the underlying
string bytes do. -/
theorem serVal_lt (v : JValB) (hv : ∀ bs, v = JValB.str bs → ∀ b ∈ bs, b < 256) :
    ∀ x ∈ serVal v, x < 256 := by
  intro x hx
  cases v with
  | str bs => exact serStr_lt bs (hv bs rfl) x hx
  | num n =>
      have := natBytes_digits n x hx
      omega

/-- Serialized member lists consist of bytes below 256 when every key and
every string value does. -/
theorem serMembers_lt (o : JObjB)
    (ho : ∀ kv ∈ o, (∀ b ∈ kv.1, b < 256) ∧
      (∀ bs, kv.2 = JValB.str bs → ∀ b ∈ bs, b < 256)) :
    ∀ x ∈ serMembers o, x < 256 := by
  induction o with
  | nil => intro x hx; simp [serMembers] at hx; omega
  | cons kv rest ih =>
    intro x hx
    have hkv := ho kv (by simp)
    have hrest : ∀ kv' ∈ rest, (∀ b ∈ kv'.1, b < 256) ∧
        (∀ bs, kv'.2 = JValB.str bs → ∀ b ∈ bs, b < 256) :=
      fun kv' h => ho kv' (by simp [h])
    rcases kv with ⟨k, v⟩
    cases rest with
    | nil =>
        have hs : serMembers [(k, v)] = serStr k ++ 58 :: (serVal v ++ [125]) := by
          simp [serMembers]
        rw [hs] at hx
        rcases List.mem_append.1 hx with hx | hx
        · exact serStr_lt k hkv.1 x hx
        · rcases List.mem_cons.1 hx with rfl | hx
          · omega
          · rcases List.mem_append.1 hx with hx | hx
            · exact serVal_lt v hkv.2 x hx
            · simp at hx; omega
    | cons kv2 rest2 =>
        have hs : serMembers ((k, v) :: kv2 :: rest2) =
            serStr k ++ 58 :: (serVal v ++ 44 :: serMembers (kv2 :: rest2)) := by
          simp [serMembers]
        rw [hs] at hx
        rcases List.mem_append.1 hx with hx | hx
        · exact serStr_lt k hkv.1 x hx
        · rcases List.mem_cons.1 hx with rfl | hx
          · omega
          · rcases List.mem_append.1 hx with hx | hx
            · exact serVal_lt v hkv.2 x hx
            · rcases List.mem_cons.1 hx with rfl | hx
              · omega
              · exact ih hrest x hx

/-- Serialized string-level objects consist of bytes below 256. -/
theorem serializeObjS_lt (o : JObjS) : ∀ x ∈ serializeObjS o, x < 256 := by
  intro x hx
  simp only [serializeObjS, serializeObj, List.mem_cons] at hx
  rcases hx with rfl | hx
  · omega
  · refine serMembers_lt (objBytes o) ?_ x hx
    intro kv hkv
    simp only [objBytes, List.mem_map] at hkv
    obtain ⟨⟨k, v⟩, _, rfl⟩ := hkv
    constructor
    · exact utf8Str_lt k
    · intro bs hbs
      cases v with
      | str s => simp [valBytes] at hbs; subst hbs; exact utf8Str_lt s
      | num n => simp [valBytes] at hbs

/-- Base64url output never contains the `.` separator. -/
theorem base64urlEncode_ne_46 (bs : List Nat) : ∀ c ∈ base64urlEncode bs, c ≠ 46 := by
  intro c hc
  simp only [base64urlEncode, List.map_map, List.mem_map] at hc
  obtain ⟨c0, hc0, rfl⟩ := hc
  have hmem := stripEq_chars bs c0 hc0
  have h : ∀ x ∈ b64Table,
      (slashToUnderscore ∘ plusToMinus) x ≠ 46 := by decide
  exact h c0 hmem

/-- Splitting a separator-free byte string yields one group. -/
theorem splitDot_nodot (xs : List Nat) (h : ∀ c ∈ xs, c ≠ 46) :
    splitDot xs = [xs] := by
  induction xs with
  | nil => rfl
  | cons c rest ih =>
      have hc : c ≠ 46 := h c (by simp)
      have hrest : ∀ x ∈ rest, x ≠ 46 := fun x hx => h x (by simp [hx])
      simp only [splitDot, hc, if_false, if_neg hc]
      rw [ih hrest]

/-- Splitting peels a separator-free prefix before a separator. -/
theorem splitDot_append (a rest : List Nat) (h : ∀ c ∈ a, c ≠ 46) :
    splitDot (a ++ 46 :: rest) = a :: splitDot rest := by
  induction a with
  | nil => simp [splitDot]
  | cons c a' ih =>
      have hc : c ≠ 46 := h c (by simp)
      have ha' : ∀ x ∈ a', x ≠ 46 := fun x hx => h x (by simp [hx])
      simp only [List.cons_append, splitDot, if_neg hc, List.append_eq]
      rw [ih ha']


/-! ### JSON round trip -/

/-- Hex digit bytes decode back to their nibble. -/
theorem hexNibble_hexDigitByte (x : Nat) (h : x < 16) :
    hexNibble (hexDigitByte x) = some x := by
  revert h
  revert x
  decide

/-- Parsing one escaped byte extends the accumulator with that byte and uses
one unit of fuel. -/
theorem parseStr_step (b fuel : Nat) (t acc : List Nat) :
    parseStrLoop (fuel + 1) (escapeByte b ++ t) acc = parseStrLoop fuel t (b :: acc) := by
  by_cases h1 : b = 34
  · subst h1; simp [escapeByte, parseStrLoop]
  by_cases h2 : b = 92
  · subst h2; simp [escapeByte, parseStrLoop]
  by_cases h3 : b = 8
  · subst h3; simp [escapeByte, parseStrLoop]
  by_cases h4 : b = 9
  · subst h4; simp [escapeByte, parseStrLoop]
  by_cases h5 : b = 10
  · subst h5; simp [escapeByte, parseStrLoop]
  by_cases h6 : b = 12
  · subst h6; simp [escapeByte, parseStrLoop]
  by_cases h7 : b = 13
  · subst h7; simp [escapeByte, parseStrLoop]
  by_cases h8 : b < 32
  · have he : escapeByte b =
        [92, 117, 48, 48, hexDigitByte (b / 16), hexDigitByte (b % 16)] := by
      simp [escapeByte, h1, h2, h3, h4, h5, h6, h7, h8]
    have hnx : hexNibble (hexDigitByte (b / 16)) = some (b / 16) :=
      hexNibble_hexDigitByte _ (by omega)
    have hny : hexNibble (hexDigitByte (b % 16)) = some (b % 16) :=
      hexNibble_hexDigitByte _ (by omega)
    have h48 : hexNibble 48 = some 0 := rfl
    rw [he]
    simp only [List.cons_append, List.nil_append]
    simp only [parseStrLoop, hnx, hny, h48]
    norm_num
    have harith : b / 16 * 16 + b % 16 = b := by omega
    rw [harith]
  · have he : escapeByte b = [b] := by
      simp [escapeByte, h1, h2, h3, h4, h5, h6, h7, h8]
    rw [he]
    simp only [List.cons_append, List.nil_append]
    simp only [parseStrLoop]
    rw [if_neg h1, if_neg h2]

/-- Escaping never shortens a byte string. -/
theorem escBytes_length (s : List Nat) : s.length ≤ (escBytes s).length := by
  induction s with
  | nil => simp [escBytes]
  | cons b s' ih =>
      have h1 : 1 ≤ (escapeByte b).length := by
        simp only [escapeByte]
        repeat' split
        all_goals simp
      have h2 : escBytes (b :: s') = escapeByte b ++ escBytes s' := by
        simp [escBytes]
      rw [h2]
      simp only [List.length_append, List.length_cons]
      omega

/-- Parsing an escaped byte string up to the closing quote recovers the
bytes, given fuel beyond the content length. -/
theorem parseStr_full (s : List Nat) : ∀ (fuel : Nat) (t acc : List Nat),
    s.length + 1 ≤ fuel →
    parseStrLoop fuel (escBytes s ++ 34 :: t) acc = some (acc.reverse ++ s, t) := by
  induction s with
  | nil =>
      intro fuel t acc hf
      cases fuel with
      | zero => omega
      | succ f => simp [escBytes, parseStrLoop]
  | cons b s' ih =>
      intro fuel t acc hf
      cases fuel with
      | zero => omega
      | succ f =>
          have hesc : escBytes (b :: s') ++ 34 :: t =
              escapeByte b ++ (escBytes s' ++ 34 :: t) := by
            simp [escBytes]
          rw [hesc, parseStr_step, ih f _ _ (by simp at hf ⊢; omega)]
          simp

/-- Parsing a serialized string literal yields the string content. -/
theorem parseVal_serStr (s t : List Nat) :
    parseVal (serStr s ++ t) = some (JValB.str s, t) := by
  have h : serStr s ++ t = 34 :: (escBytes s ++ 34 :: t) := by
    simp [serStr]
  have hlen : s.length + 1 ≤ (escBytes s ++ 34 :: t).length := by
    have := escBytes_length s
    simp only [List.length_append, List.length_cons]
    omega
  rw [h]
  simp only [parseVal, if_true]
  rw [parseStr_full _ _ _ _ hlen]
  simp

/-- The decimal rendering is never empty. -/
theorem natBytes_ne_nil (n : Nat) : natBytes n ≠ [] := by
  rw [natBytes]
  split <;> simp

/-- Consuming a decimal rendering folds its value onto the accumulator. -/
theorem parseNumLoop_natBytes (n : Nat) : ∀ (t : List Nat) (acc : Nat),
    parseNumLoop (natBytes n ++ t) acc =
    parseNumLoop t (acc * 10 ^ (natBytes n).length + n) := by
  induction n using Nat.strong_induction_on with
  | _ n ih =>
    intro t acc
    by_cases h : n < 10
    · rw [natBytes, dif_pos h]
      simp only [List.cons_append, List.nil_append, List.length_cons,
        List.length_nil]
      rw [parseNumLoop]
      rw [if_pos (by omega : 48 ≤ 48 + n ∧ 48 + n ≤ 57)]
      norm_num
    · rw [natBytes, dif_neg h]
      rw [List.append_assoc]
      rw [ih (n / 10) (by omega)]
      simp only [List.cons_append, List.nil_append]
      rw [parseNumLoop]
      rw [if_pos (by omega : 48 ≤ 48 + n % 10 ∧ 48 + n % 10 ≤ 57)]
      simp only [List.length_append, List.length_cons, List.length_nil]
      rw [pow_succ]
      generalize 10 ^ (natBytes (n / 10)).length = P
      have harith : (acc * P + n / 10) * 10 + (48 + n % 10 - 48) =
          acc * (P * 10) + n := by
        have h2 : n / 10 * 10 + n % 10 = n := by omega
        have h3 : 48 + n % 10 - 48 = n % 10 := by omega
        rw [h3, add_mul, add_assoc, h2, mul_assoc]
      rw [harith]

/-- Parsing a decimal rendering followed by a non-digit yields the number. -/
theorem parseVal_natBytes (n d : Nat) (t : List Nat) (hd : ¬(48 ≤ d ∧ d ≤ 57)) :
    parseVal (natBytes n ++ d :: t) = some (JValB.num n, d :: t) := by
  cases hnb : natBytes n with
  | nil => exact absurd hnb (natBytes_ne_nil n)
  | cons b ds =>
      have hb : 48 ≤ b ∧ b ≤ 57 := natBytes_digits n b (by rw [hnb]; simp)
      have hform : (b :: ds) ++ d :: t = natBytes n ++ d :: t := by rw [hnb]
      rw [List.cons_append]
      simp only [parseVal]
      rw [if_neg (by omega : ¬ b = 34), if_pos hb]
      rw [← List.cons_append, hform, parseNumLoop_natBytes]
      rw [parseNumLoop, if_neg hd]
      norm_num

/-- Parsing a serialized value before `,` or `}` yields the value. -/
theorem parseVal_serVal (v : JValB) (d : Nat) (t : List Nat) (hd : d = 44 ∨ d = 125) :
    parseVal (serVal v ++ d :: t) = some (v, d :: t) := by
  cases v with
  | str s =>
      simp only [serVal]
      exact parseVal_serStr s (d :: t)
  | num n =>
      simp only [serVal]
      exact parseVal_natBytes n d t (by rcases hd with h | h <;> omega)

/-- The member serialization is at least as long as the member list. -/
theorem serMembers_length (o : JObjB) : o.length ≤ (serMembers o).length := by
  induction o with
  | nil => simp [serMembers]
  | cons kv rest ih =>
      obtain ⟨k, v⟩ := kv
      cases rest with
      | nil =>
          simp only [serMembers, serStr, List.length_cons, List.length_append,
            List.length_nil]
          omega
      | cons kv2 rest2 =>
          simp only [serMembers, serStr] at ih ⊢
          simp only [List.length_cons, List.length_append, List.length_nil] at ih ⊢
          omega

/-- Parsing the serialized members of a non-empty object recovers the
members and the trailing bytes, given fuel at least the member count. -/
theorem parseMembers_serMembers (o : JObjB) : ∀ (fuel : Nat) (t : List Nat),
    o.length ≤ fuel → o ≠ [] →
    parseMembers fuel (serMembers o ++ t) = some (o, t) := by
  induction o with
  | nil => intro fuel t _ ho; exact absurd rfl ho
  | cons kv rest ih =>
      obtain ⟨k, v⟩ := kv
      intro fuel t hf _
      cases fuel with
      | zero => simp at hf
      | succ f =>
          cases rest with
          | nil =>
              have hshape : serMembers [(k, v)] ++ t =
                  34 :: (escBytes k ++ 34 :: (58 :: (serVal v ++ 125 :: t))) := by
                simp [serMembers, serStr]
              have hfk : k.length + 1 ≤
                  (escBytes k ++ 34 :: (58 :: (serVal v ++ 125 :: t))).length := by
                have := escBytes_length k
                simp only [List.length_append, List.length_cons]
                omega
              rw [hshape]
              simp only [parseMembers]
              rw [parseStr_full _ _ _ _ hfk]
              simp only [List.reverse_nil, List.nil_append]
              rw [parseVal_serVal v 125 t (Or.inr rfl)]
          | cons kv2 rest2 =>
              have hshape : serMembers ((k, v) :: kv2 :: rest2) ++ t =
                  34 :: (escBytes k ++ 34 ::
                    (58 :: (serVal v ++ 44 :: (serMembers (kv2 :: rest2) ++ t)))) := by
                simp [serMembers, serStr]
              have hfk : k.length + 1 ≤
                  (escBytes k ++ 34 ::
                    (58 :: (serVal v ++ 44 :: (serMembers (kv2 :: rest2) ++ t)))).length := by
                have := escBytes_length k
                simp only [List.length_append, List.length_cons]
                omega
              rw [hshape]
              simp only [parseMembers]
              rw [parseStr_full _ _ _ _ hfk]
              simp only [List.reverse_nil, List.nil_append]
              rw [parseVal_serVal v 44 _ (Or.inl rfl)]
              have hih := ih f t (by simp at hf ⊢; omega) (by simp)
              simp [hih]

/-- `JSON.parse` inverts the serializer on every flat object. -/
theorem jsonParse_serializeObj (o : JObjB) : jsonParse (serializeObj o) = some o := by
  cases o with
  | nil => rfl
  | cons kv rest =>
      obtain ⟨k, v⟩ := kv
      have h34 : ∃ X, serMembers ((k, v) :: rest) = 34 :: X := by
        cases rest with
        | nil =>
            exact ⟨escBytes k ++ 34 :: 58 :: (serVal v ++ [125]),
              by simp [serMembers, serStr]⟩
        | cons kv2 rest2 =>
            exact ⟨escBytes k ++ 34 :: 58 :: (serVal v ++ 44 :: serMembers (kv2 :: rest2)),
              by simp [serMembers, serStr]⟩
      obtain ⟨X, hX⟩ := h34
      have hfuel : ((k, v) :: rest).length ≤ (34 :: X).length := by
        have := serMembers_length ((k, v) :: rest)
        rw [hX] at this
        exact this
      have hpm : parseMembers (34 :: X).length (serMembers ((k, v) :: rest) ++ []) =
          some ((k, v) :: rest, []) :=
        parseMembers_serMembers ((k, v) :: rest) _ [] hfuel (by simp)
      rw [List.append_nil, hX] at hpm
      have hred : jsonParse (serializeObj ((k, v) :: rest)) =
          (match parseMembers (34 :: X).length (34 :: X) with
           | some (o, rest1) => if rest1.isEmpty then some o else none
           | none => none) := by
        rw [serializeObj, hX]
        rfl
      rw [hred, hpm]
      rfl

/-! ### JWT round trip -/

/-- Decoding a freshly signed compact JWT recovers header and payload
objects and the exact signing input and signature parts. -/
theorem decodeJwt_signJwt (payload : JObjS) (secret : List Nat) :
    decodeJwtNoVerify (signJwtHs256 payload secret) =
      some (objBytes jwtHeaderObj, objBytes payload,
        base64urlEncode (serializeObjS jwtHeaderObj) ++ 46 ::
          base64urlEncode (serializeObjS payload),
        base64urlEncode (hmacSha256 secret
          (base64urlEncode (serializeObjS jwtHeaderObj) ++ 46 ::
            base64urlEncode (serializeObjS payload)))) := by
  have hshape : signJwtHs256 payload secret =
      base64urlEncode (serializeObjS jwtHeaderObj) ++ 46 ::
        (base64urlEncode (serializeObjS payload) ++ 46 ::
          base64urlEncode (hmacSha256 secret
            (base64urlEncode (serializeObjS jwtHeaderObj) ++ 46 ::
              base64urlEncode (serializeObjS payload)))) := by
    simp [signJwtHs256]
  rw [hshape]
  unfold decodeJwtNoVerify
  rw [splitDot_append _ _ (base64urlEncode_ne_46 _),
    splitDot_append _ _ (base64urlEncode_ne_46 _),
    splitDot_nodot _ (base64urlEncode_ne_46 _)]
  have hH : jsonParse (base64urlDecode (base64urlEncode (serializeObjS jwtHeaderObj))) =
      some (objBytes jwtHeaderObj) := by
    rw [base64url_roundtrip _ (serializeObjS_lt _)]
    exact jsonParse_serializeObj _
  have hP : jsonParse (base64urlDecode (base64urlEncode (serializeObjS payload))) =
      some (objBytes payload) := by
    rw [base64url_roundtrip _ (serializeObjS_lt _)]
    exact jsonParse_serializeObj _
  simp [hH, hP]

/-- The test-suite verifier accepts every token signed with the same
secret. -/
theorem verifyHs256_signJwt (payload : JObjS) (secret : String) :
    verifyHs256 (signJwtHs256 payload (utf8Str secret)) secret = some true := by
  unfold verifyHs256
  rw [decodeJwt_signJwt]
  have halg : (objBytes jwtHeaderObj).lookup (utf8Str "alg") =
      some (JValB.str (utf8Str "HS256")) := rfl
  simp [halg]

/-! ### Claims C1, C6, C7, C8 -/

/-- C1: for every federation request carrying a validly signed inbound token
whose subject claim is a non-empty string `s`, the handler answers 200 with a
minted access token: it is HS256-signed with the configured secret and
verifies under the test-suite verifier, and its payload has
`sub = map(s)`, `aud = "authenticated"`, `role = "authenticated"`,
`iat = now` and `exp = now + 3600 > iat`. -/
theorem c1_federation_mints_valid_token (env : FedEnv) (inp : FedInput) (s : String)
    (hm : inp.method = HttpMethod.post) (hrl : inp.rlOk = true)
    (hbody : inp.bodyTokenOk = true) (hstruct : inp.structOk = true)
    (hsig : inp.sigOk = true)
    (hiss : inp.payload.lookup "iss" = some (JValS.str env.expectedIssuer))
    (haud : inp.payload.lookup "aud" = some (JValS.str env.expectedAudience))
    (hsub : inp.payload.lookup "sub" = some (JValS.str s))
    (hne : (jsTrim s).data.isEmpty = false)
    (hoc : inp.oracle ≠ DbOracle.createFailed) (hot : inp.oracle ≠ DbOracle.threw) :
    ∃ email tok,
      handleFederate env inp = ⟨200, RespBody.okSession tok none, true, true⟩ ∧
      tok = mintAccessToken email (uuidV5FromString s NAMESPACE_UUID) inp.now env.jwtSecret ∧
      verifyHs256 tok env.jwtSecret = some true ∧
      ∃ hdr pld si sg,
        decodeJwtNoVerify tok = some (hdr, pld, si, sg) ∧
        pld.lookup (utf8Str "sub") =
          some (JValB.str (utf8Str (uuidV5FromString s NAMESPACE_UUID))) ∧
        pld.lookup (utf8Str "aud") = some (JValB.str (utf8Str "authenticated")) ∧
        pld.lookup (utf8Str "role") = some (JValB.str (utf8Str "authenticated")) ∧
        pld.lookup (utf8Str "iat") = some (JValB.num inp.now) ∧
        pld.lookup (utf8Str "exp") = some (JValB.num (inp.now + 3600)) ∧
        inp.now < inp.now + 3600 := by
  have hjose : joseVerifyOk env inp = true := by
    simp [joseVerifyOk, hstruct, hsig, hiss, haud]
  have hens : ∃ email trace,
      ensureAuthUser inp.oracle (uuidV5FromString s NAMESPACE_UUID) s inp.payload =
        (.ok email, trace) := by
    cases ho : inp.oracle with
    | found st =>
        exact ⟨(pickEmail inp.payload).getD ("clerk+" ++ s ++ "@example.invalid"),
          [.getUserById (uuidV5FromString s NAMESPACE_UUID)], rfl⟩
    | createdOk =>
        exact ⟨(pickEmail inp.payload).getD ("clerk+" ++ s ++ "@example.invalid"),
          [.getUserById (uuidV5FromString s NAMESPACE_UUID),
           .createUser (uuidV5FromString s NAMESPACE_UUID)
             ((pickEmail inp.payload).getD ("clerk+" ++ s ++ "@example.invalid")) s
             (inp.payload.lookup "iss")], rfl⟩
    | raceFound =>
        exact ⟨(pickEmail inp.payload).getD ("clerk+" ++ s ++ "@example.invalid"),
          [.getUserById (uuidV5FromString s NAMESPACE_UUID),
           .createUser (uuidV5FromString s NAMESPACE_UUID)
             ((pickEmail inp.payload).getD ("clerk+" ++ s ++ "@example.invalid")) s
             (inp.payload.lookup "iss"),
           .getUserById (uuidV5FromString s NAMESPACE_UUID)], rfl⟩
    | createFailed => exact absurd ho hoc
    | threw => exact absurd ho hot
  obtain ⟨email, trace, hE⟩ := hens
  have hout : handleFederate env inp =
      ⟨200, RespBody.okSession (mintAccessToken email (uuidV5FromString s NAMESPACE_UUID)
        inp.now env.jwtSecret) none, true, true⟩ := by
    simp [handleFederate, hm, hrl, hbody, hjose, hiss, hsub, hne, hE]
  refine ⟨email, _, hout, rfl, ?_, ?_⟩
  · simp only [mintAccessToken]
    exact verifyHs256_signJwt _ env.jwtSecret
  · refine ⟨objBytes jwtHeaderObj,
      objBytes [("aud", JValS.str "authenticated"), ("email", JValS.str email),
        ("role", JValS.str "authenticated"),
        ("sub", JValS.str (uuidV5FromString s NAMESPACE_UUID)),
        ("iat", JValS.num inp.now), ("exp", JValS.num (inp.now + 60 * 60))],
      base64urlEncode (serializeObjS jwtHeaderObj) ++ 46 ::
        base64urlEncode (serializeObjS [("aud", JValS.str "authenticated"), ("email", JValS.str email),
        ("role", JValS.str "authenticated"),
        ("sub", JValS.str (uuidV5FromString s NAMESPACE_UUID)),
        ("iat", JValS.num inp.now), ("exp", JValS.num (inp.now + 60 * 60))]),
      base64urlEncode (hmacSha256 (utf8Str env.jwtSecret)
        (base64urlEncode (serializeObjS jwtHeaderObj) ++ 46 ::
          base64urlEncode (serializeObjS [("aud", JValS.str "authenticated"), ("email", JValS.str email),
        ("role", JValS.str "authenticated"),
        ("sub", JValS.str (uuidV5FromString s NAMESPACE_UUID)),
        ("iat", JValS.num inp.now), ("exp", JValS.num (inp.now + 60 * 60))]))),
      ?_, rfl, rfl, rfl, rfl, rfl, by omega⟩
    simp only [mintAccessToken]
    exact decodeJwt_signJwt _ _

theorem c1_witness :
    ∃ email tok,
      handleFederate ⟨"top-secret", "https://clerk.example.test", "authenticated"⟩
        ⟨HttpMethod.post, true, true, true, true,
          [("iss", JValS.str "https://clerk.example.test"),
           ("aud", JValS.str "authenticated"),
           ("sub", JValS.str "user_test_123")], DbOracle.createdOk, 1700000000⟩ =
        ⟨200, RespBody.okSession tok none, true, true⟩ ∧
      tok = mintAccessToken email (uuidV5FromString "user_test_123" NAMESPACE_UUID)
        1700000000 "top-secret" ∧
      verifyHs256 tok "top-secret" = some true ∧
      ∃ hdr pld si sg,
        decodeJwtNoVerify tok = some (hdr, pld, si, sg) ∧
        pld.lookup (utf8Str "sub") =
          some (JValB.str (utf8Str (uuidV5FromString "user_test_123" NAMESPACE_UUID))) ∧
        pld.lookup (utf8Str "aud") = some (JValB.str (utf8Str "authenticated")) ∧
        pld.lookup (utf8Str "role") = some (JValB.str (utf8Str "authenticated")) ∧
        pld.lookup (utf8Str "iat") = some (JValB.num 1700000000) ∧
        pld.lookup (utf8Str "exp") = some (JValB.num (1700000000 + 3600)) ∧
        1700000000 < 1700000000 + 3600 :=
  c1_federation_mints_valid_token _ _ "user_test_123" rfl rfl rfl rfl rfl rfl rfl rfl rfl
    (by decide) (by decide)

/-- C6: under post/rate-limit/body success, every verification failure —
structural invalidity, bad signature, wrong issuer or wrong audience — is
answered with the single uniform 401 `jwt_invalid` response, and a verified
token whose `sub` claim is an empty-trim string or not a string is answered
401 `jwt_invalid` "Missing user_id"; in all these cases neither user
provisioning nor minting is attempted. -/
theorem c6_invalid_tokens_uniformly_rejected (env : FedEnv) (inp : FedInput)
    (hm : inp.method = HttpMethod.post) (hrl : inp.rlOk = true)
    (hbody : inp.bodyTokenOk = true) :
    (inp.structOk = false ∨ inp.sigOk = false ∨
        inp.payload.lookup "iss" ≠ some (JValS.str env.expectedIssuer) ∨
        inp.payload.lookup "aud" ≠ some (JValS.str env.expectedAudience) →
      handleFederate env inp =
        ⟨401, RespBody.err ErrCode.jwt_invalid "jwt_invalid", false, false⟩) ∧
    (joseVerifyOk env inp = true →
      (∀ s, inp.payload.lookup "sub" = some (JValS.str s) →
        (jsTrim s).data.isEmpty = true →
        handleFederate env inp =
          ⟨401, RespBody.err ErrCode.jwt_invalid "Missing user_id", false, false⟩) ∧
      ((∀ s, inp.payload.lookup "sub" ≠ some (JValS.str s)) →
        handleFederate env inp =
          ⟨401, RespBody.err ErrCode.jwt_invalid "Missing user_id", false, false⟩)) := by
  constructor
  · intro hfail
    have hjose : joseVerifyOk env inp = false := by
      rcases hfail with h | h | h | h <;> simp [joseVerifyOk, h]
    simp [handleFederate, hm, hrl, hbody, hjose]
  · intro hjose
    have hiss : inp.payload.lookup "iss" = some (JValS.str env.expectedIssuer) := by
      simp only [joseVerifyOk, Bool.and_eq_true, decide_eq_true_eq] at hjose
      exact hjose.1.2
    constructor
    · intro s hsub hempty
      simp [handleFederate, hm, hrl, hbody, hjose, hiss, hsub, hempty]
    · intro hnosub
      cases hl : inp.payload.lookup "sub" with
      | none => simp [handleFederate, hm, hrl, hbody, hjose, hiss, hl]
      | some v =>
          cases v with
          | str s => exact absurd hl (hnosub s)
          | num n => simp [handleFederate, hm, hrl, hbody, hjose, hiss, hl]

theorem c6_witness :
    handleFederate ⟨"top-secret", "https://clerk.example.test", "expected-audience"⟩
      ⟨HttpMethod.post, true, true, true, true,
        [("iss", JValS.str "https://clerk.example.test"),
         ("aud", JValS.str "other-audience"),
         ("sub", JValS.str "user_test_123")], DbOracle.createdOk, 1700000000⟩ =
      ⟨401, RespBody.err ErrCode.jwt_invalid "jwt_invalid", false, false⟩ :=
  (c6_invalid_tokens_uniformly_rejected _ _ rfl rfl rfl).1
    (Or.inr (Or.inr (Or.inr (by decide))))

/-- C7: every successful response body of the federation handler carries
`refresh_token = null`: whenever the body is a session, its refresh token is
`none`, since the handler mints the access token directly and never redeems
a magic-link session. -/
theorem c7_success_refresh_token_null (env : FedEnv) (inp : FedInput)
    (tok : List Nat) (r : Option (List Nat))
    (h : (handleFederate env inp).body = RespBody.okSession tok r) : r = none := by
  unfold handleFederate at h
  repeat' split at h
  all_goals simp_all

theorem c7_witness :
    (handleFederate ⟨"s", "i", "a"⟩
        ⟨HttpMethod.options, true, true, true, true, [], DbOracle.createdOk, 0⟩).body =
      RespBody.okSession [] none ∧ (none : Option (List Nat)) = none :=
  ⟨rfl, c7_success_refresh_token_null ⟨"s", "i", "a"⟩
    ⟨HttpMethod.options, true, true, true, true, [], DbOracle.createdOk, 0⟩ [] none rfl⟩

theorem c8_counterexample :
    (ensureAuthUser (DbOracle.found "stored@example.com")
        "35d83f30-85c9-5853-b142-a636fb7a0a95" "user_x"
        [("email", JValS.str "jwt@example.com")]).1 = Except.ok "jwt@example.com" ∧
    "jwt@example.com" ≠ "stored@example.com" := by
  constructor
  · rfl
  · decide

/-- C8 (amended): `ensureAuthUser` always derives the email from the claims
(first acceptable email claim, else the synthesized placeholder). When the
lookup finds the user it returns that claims-derived email — not the stored
user's email — after only the lookup call; when absent it creates the record
with `clerk_iss`/`clerk_user_id` metadata; on a creation conflict it
re-queries and treats a found user as success; and it throws
`USER_CREATE_FAILED` exactly when creation fails and the re-check also
fails. -/
theorem c8_ensure_user_contract (oracle : DbOracle) (sid cid : String)
    (payload : JObjS) :
    (∀ st, oracle = DbOracle.found st →
      ensureAuthUser oracle sid cid payload =
        (Except.ok ((pickEmail payload).getD ("clerk+" ++ cid ++ "@example.invalid")),
         [AdminCall.getUserById sid])) ∧
    (oracle = DbOracle.createdOk →
      ensureAuthUser oracle sid cid payload =
        (Except.ok ((pickEmail payload).getD ("clerk+" ++ cid ++ "@example.invalid")),
         [AdminCall.getUserById sid,
          AdminCall.createUser sid
            ((pickEmail payload).getD ("clerk+" ++ cid ++ "@example.invalid")) cid
            (payload.lookup "iss")])) ∧
    (oracle = DbOracle.raceFound →
      ensureAuthUser oracle sid cid payload =
        (Except.ok ((pickEmail payload).getD ("clerk+" ++ cid ++ "@example.invalid")),
         [AdminCall.getUserById sid,
          AdminCall.createUser sid
            ((pickEmail payload).getD ("clerk+" ++ cid ++ "@example.invalid")) cid
            (payload.lookup "iss"),
          AdminCall.getUserById sid])) ∧
    (oracle = DbOracle.createFailed →
      ensureAuthUser oracle sid cid payload =
        (Except.error EnsureErr.userCreateFailed,
         [AdminCall.getUserById sid,
          AdminCall.createUser sid
            ((pickEmail payload).getD ("clerk+" ++ cid ++ "@example.invalid")) cid
            (payload.lookup "iss"),
          AdminCall.getUserById sid])) ∧
    ((ensureAuthUser oracle sid cid payload).1 = Except.error EnsureErr.userCreateFailed ↔
      oracle = DbOracle.createFailed) := by
  cases oracle <;> simp [ensureAuthUser]

theorem c8_witness :
    ensureAuthUser (DbOracle.found "someone@example.org") "sid-1" "cid-1" [] =
      (Except.ok "clerk+cid-1@example.invalid", [AdminCall.getUserById "sid-1"]) :=
  (c8_ensure_user_contract (DbOracle.found "someone@example.org") "sid-1" "cid-1" []).1
    "someone@example.org" rfl
